import Mathlib

/-!
Verification development for the global-ledger-consistency-lab payment
pipeline.  The definitions below are a shallow embedding of the Python
sources: the shared contract enums and ORM rows (`shared/contracts/models.py`,
`shared/db/orm_models.py`), the intake use case and its mode strategies
(`payments_api/use_cases/create_payment.py`, `mode_strategies.py`), the
worker processor, its mode strategies, outbox repository and failure
injector (`ledger_worker/services/processor.py`, `mode_strategies.py`,
`repositories/outbox_repository.py`, `services/failure_injector.py`), and
the seed data (`payments_api/db/migrate.py`).

Database rows are lists of records; SQL row updates become `List.map`
keyed on the primary key; generated uuids and clock reads are passed in as
explicit parameters; timestamps are natural numbers.  Each connection-level
transaction of the source becomes one total Lean function from database
state to database state (failures return the unchanged state, mirroring
rollback).
-/

namespace Ledger

/-- Payment lifecycle status, mirroring `shared.contracts.models.PaymentStatus`. -/
inductive PaymentStatus where
  | received
  | reserved
  | completed
  | rejected
  deriving DecidableEq, Repr

/-- Persisted string form of a payment status (`PaymentStatus.value`). -/
def PaymentStatus.value : PaymentStatus → String
  | .received => "received"
  | .reserved => "reserved"
  | .completed => "completed"
  | .rejected => "rejected"

/-- Outbox event status, mirroring `shared.contracts.models.OutboxStatus`. -/
inductive OutboxStatus where
  | pending
  | processing
  | processed
  | dead
  deriving DecidableEq, Repr

/-- Ledger entry direction, mirroring `shared.contracts.models.LedgerDirection`. -/
inductive LedgerDirection where
  | DEBIT
  | CREDIT
  deriving DecidableEq, Repr

/-- Consistency mode, mirroring `shared.contracts.models.ConsistencyMode`. -/
inductive ConsistencyMode where
  | strong
  | hybrid
  | eventual
  deriving DecidableEq, Repr

/-- Error codes, mirroring `shared.contracts.models.ErrorCode`. -/
inductive ErrorCode where
  | INSUFFICIENT_FUNDS
  | INVALID_PAYMENT
  | IDEMPOTENCY_CONFLICT
  | IDEMPOTENCY_UNAVAILABLE
  | DEPENDENCY_UNAVAILABLE
  | INVARIANT_VIOLATION
  deriving DecidableEq, Repr

/-- Account row (`shared.db.orm_models.AccountORM`). -/
structure Account where
  id : String
  available_balance_cents : Int
  reserved_balance_cents : Int
  version : Nat
  deriving DecidableEq, Repr

/-- Payment row (`shared.db.orm_models.PaymentORM`). -/
structure Payment where
  id : String
  idempotency_key : String
  request_hash : String
  source_account_id : String
  destination_account_id : String
  amount_cents : Int
  method : String
  status : PaymentStatus
  deriving DecidableEq, Repr

/-- Idempotency row (`shared.db.orm_models.IdempotencyKeyORM`). -/
structure IdempotencyKeyRow where
  key : String
  request_hash : String
  response_payload_json : String
  deriving DecidableEq, Repr

/-- Values a JSON payload field can decode to under Python `json.loads`:
integers, booleans, strings, `null`, or any other JSON shape (floats,
arrays, objects), which the worker payload readers all reject. -/
inductive JVal where
  | jint (n : Int)
  | jbool (b : Bool)
  | jstr (s : String)
  | jnull
  | jother
  deriving DecidableEq, Repr

/-- A decoded JSON object: an association list from field name to value. -/
abbrev JObj := List (String × JVal)

/-- Field lookup in a decoded JSON object (Python `dict.get`). -/
def JObj.get (o : JObj) (k : String) : Option JVal :=
  (o.find? (fun kv => kv.1 == k)).map (fun kv => kv.2)

/-- Outbox event row (`shared.db.orm_models.OutboxEventORM`).  The
`payload_json` column is embedded in decoded form. -/
structure OutboxEvent where
  id : String
  aggregate_id : String
  event_type : String
  payload_json : JObj
  status : OutboxStatus
  attempts : Nat
  next_retry_at : Option Nat
  created_at : Nat
  deriving DecidableEq, Repr

/-- Ledger entry row (`shared.db.orm_models.LedgerEntryORM`). -/
structure LedgerEntry where
  id : String
  payment_id : String
  account_id : String
  direction : LedgerDirection
  amount_cents : Int
  deriving DecidableEq, Repr

/-- The five-table database state shared by both services. -/
structure DBState where
  accounts : List Account
  payments : List Payment
  idempotency : List IdempotencyKeyRow
  outbox : List OutboxEvent
  ledger : List LedgerEntry
  deriving DecidableEq, Repr

/-- Worker-side error (`ledger_worker.core.errors.WorkerError`). -/
structure WorkerError where
  error_code : ErrorCode
  message : String
  deriving DecidableEq, Repr

/-- Parsed outbox payload (`ledger_worker.services.processor.EventPayload`). -/
structure EventPayload where
  payment_id : String
  source_account_id : String
  destination_account_id : String
  amount_cents : Int
  traceparent : Option String
  deriving DecidableEq, Repr

/-- Unicode decimal-digit (category Nd) code-point ranges below U+1000 —
ASCII plus the Arabic-Indic, Extended Arabic-Indic, NKo and the major
Brahmic-script digit blocks — each range holding the digits 0..9 in
order.  Python's `str.isdigit` accepts these and `int()` converts each
character by its digit value.  Code points outside the blocks listed
here and in `digitOtherCodes` are classified as non-digits by this
embedding of the Unicode tables. -/
def decimalDigitRanges : List (Nat × Nat) :=
  [(48, 57), (1632, 1641), (1776, 1785), (1984, 1993), (2406, 2415),
   (2534, 2543), (2662, 2671), (2790, 2799), (2918, 2927), (3046, 3055),
   (3174, 3183), (3302, 3311), (3430, 3439), (3558, 3567), (3664, 3673),
   (3792, 3801), (3872, 3881)]

/-- Code points Python's `str.isdigit` accepts although they are not
decimal digits (`Numeric_Type=Digit`): the Latin-1 superscript digits
and the superscript and subscript digit blocks.  `int()` raises
`ValueError` on them. -/
def digitOtherCodes : List Nat :=
  [178, 179, 185, 8304, 8308, 8309, 8310, 8311, 8312, 8313,
   8320, 8321, 8322, 8323, 8324, 8325, 8326, 8327, 8328, 8329]

/-- The digit value of a character when it is a Unicode decimal digit. -/
def char_decimal_value (c : Char) : Option Nat :=
  match decimalDigitRanges.find?
      (fun r => decide (r.1 ≤ c.toNat) && decide (c.toNat ≤ r.2)) with
  | some r => some (c.toNat - r.1)
  | none => none

/-- Python `str.isdigit` on one character: decimal digits plus the
digit-classified non-decimal characters. -/
def char_isdigit_py (c : Char) : Bool :=
  (char_decimal_value c).isSome || digitOtherCodes.contains c.toNat

/-- Python `str.isdigit`: non-empty and every character digit-classified
(decimal or not). -/
def str_isdigit (s : String) : Bool :=
  !s.data.isEmpty && s.data.all char_isdigit_py

/-- Python `int(...)` on a string that passed `isdigit`: succeeds exactly
when every character is a decimal digit, converting by digit value in
base 10; a digit-classified non-decimal character (for example a
superscript) makes it raise `ValueError`. -/
def int_of_digits (s : String) : Option Nat :=
  s.data.foldl (fun acc c =>
    match acc, char_decimal_value c with
    | some a, some d => some (a * 10 + d)
    | _, _ => none) (some 0)

/-- An exception escaping the worker's per-event processing: a raised
`WorkerError` (handled by the permanent-failure arm), or a Python
`ValueError` from `int()` on a payload field, which falls through to the
`except Exception` arm and is handled as a transient failure. -/
inductive PyFailure where
  | worker (e : WorkerError)
  | valueError (field : String)
  deriving DecidableEq, Repr

/-- The `WorkerError` raised for a malformed payload field
(`WorkerMessage.INVALID_PAYLOAD_FIELD`). -/
def invalid_payload_error (field : String) : WorkerError :=
  ⟨ErrorCode.INVARIANT_VIOLATION, "invalid payload field: " ++ field⟩

/-- `WorkerProcessor._as_required_str`: a required field must decode to a
non-empty string. -/
def as_required_str (payload : JObj) (field : String) : Except WorkerError String :=
  match JObj.get payload field with
  | some (JVal.jstr v) => if v.isEmpty then .error (invalid_payload_error field) else .ok v
  | _ => .error (invalid_payload_error field)

/-- `WorkerProcessor._as_required_int`: accepts a JSON integer, a JSON
boolean (Python `bool` is an `int` subtype, so `isinstance(value, int)`
holds and `true` acts as 1, `false` as 0), or a string passing
`str.isdigit` followed by `int(value)` — where `int` raises `ValueError`
on digit-classified non-decimal characters; every other shape raises
`WorkerError`. -/
def as_required_int (payload : JObj) (field : String) : Except PyFailure Int :=
  match JObj.get payload field with
  | some (JVal.jint n) => .ok n
  | some (JVal.jbool b) => .ok (if b then 1 else 0)
  | some (JVal.jstr v) =>
      if str_isdigit v then
        match int_of_digits v with
        | some n => .ok n
        | none => .error (PyFailure.valueError v)
      else .error (PyFailure.worker (invalid_payload_error field))
  | _ => .error (PyFailure.worker (invalid_payload_error field))

/-- `WorkerProcessor._as_optional_str`: missing, null, empty or non-string
values all collapse to `None`. -/
def as_optional_str (payload : JObj) (field : String) : Option String :=
  match JObj.get payload field with
  | some (JVal.jstr v) => if v.isEmpty then none else some v
  | _ => none

/-- `WorkerProcessor._parse_payload`, field by field in source order; the
first malformed field raises. -/
def parse_payload (payload : JObj) : Except PyFailure EventPayload :=
  match as_required_str payload "payment_id" with
  | .error e => .error (PyFailure.worker e)
  | .ok pid =>
    match as_required_str payload "source_account_id" with
    | .error e => .error (PyFailure.worker e)
    | .ok src =>
      match as_required_str payload "destination_account_id" with
      | .error e => .error (PyFailure.worker e)
      | .ok dst =>
        match as_required_int payload "amount_cents" with
        | .error e => .error e
        | .ok amount => .ok ⟨pid, src, dst, amount, as_optional_str payload "traceparent"⟩

/-- Row lookup by primary key for accounts (`SELECT ... WHERE id = ...`). -/
def findAccount (accs : List Account) (aid : String) : Option Account :=
  accs.find? (fun a => a.id == aid)

/-- In-place mutation of the account row with the given id, as a map over
the table. -/
def updateAccount (accs : List Account) (aid : String) (f : Account → Account) : List Account :=
  accs.map (fun a => if a.id == aid then f a else a)

/-- Row lookup by primary key for payments. -/
def findPayment (ps : List Payment) (pid : String) : Option Payment :=
  ps.find? (fun p => p.id == pid)

/-- Mutation of `payment.status` for the row with the given id. -/
def updatePaymentStatus (ps : List Payment) (pid : String) (st : PaymentStatus) : List Payment :=
  ps.map (fun p => if p.id == pid then { p with status := st } else p)

/-- Row lookup by primary key for outbox events
(`WorkerProcessor._load_event_for_update`). -/
def findEvent (evs : List OutboxEvent) (eid : String) : Option OutboxEvent :=
  evs.find? (fun e => e.id == eid)

/-- `OutboxRepository.mark_processed` on a single row. -/
def mark_processed (e : OutboxEvent) : OutboxEvent :=
  { e with status := OutboxStatus.processed, next_retry_at := none }

/-- Marking the outbox row with the given id processed, as a table map. -/
def markProcessedOutbox (evs : List OutboxEvent) (eid : String) : List OutboxEvent :=
  evs.map (fun e => if e.id == eid then mark_processed e else e)

/-- `OutboxRepository.mark_retry`: increment `attempts`; from the seventh
attempt onwards the event goes `dead` with no retry time, otherwise it
returns to `pending` scheduled at the given time. -/
def mark_retry (e : OutboxEvent) (next_retry_at : Nat) : OutboxEvent :=
  let e2 := { e with attempts := e.attempts + 1 }
  if e2.attempts ≥ 7 then { e2 with status := OutboxStatus.dead, next_retry_at := none }
  else { e2 with status := OutboxStatus.pending, next_retry_at := some next_retry_at }

/-- The DEBIT ledger row appended for a moved payment.  The source builds
its id from a fresh uuid; the embedding derives a deterministic fresh id
from the payment id, which no proved property inspects. -/
def debitEntry (payment_id account_id : String) (amount : Int) : LedgerEntry :=
  ⟨"led-debit-" ++ payment_id, payment_id, account_id, LedgerDirection.DEBIT, amount⟩

/-- The CREDIT ledger row appended for a moved payment. -/
def creditEntry (payment_id account_id : String) (amount : Int) : LedgerEntry :=
  ⟨"led-credit-" ++ payment_id, payment_id, account_id, LedgerDirection.CREDIT, amount⟩

/-- `_add_ledger_entries` (identical in intake use case and worker): append
one DEBIT row for the source and one CREDIT row for the destination. -/
def addLedgerEntries (l : List LedgerEntry) (payment_id src dst : String) (amount : Int) :
    List LedgerEntry :=
  l ++ [debitEntry payment_id src amount, creditEntry payment_id dst amount]

/-- `WorkerProcessor._handle_hybrid_event`.  Returns the new database state
together with the `payments_processed` counter increment; raising a
`WorkerError` is returning `.error`. -/
def handle_hybrid_event (s : DBState) (eid : String) (p : EventPayload) :
    Except WorkerError (DBState × Nat) :=
  match findPayment s.payments p.payment_id with
  | none => .error ⟨ErrorCode.INVARIANT_VIOLATION, "payment not found"⟩
  | some payment =>
    if payment.status = PaymentStatus.completed ∨ payment.status = PaymentStatus.rejected then
      .ok ({ s with outbox := markProcessedOutbox s.outbox eid }, 0)
    else
      match findAccount s.accounts p.source_account_id,
            findAccount s.accounts p.destination_account_id with
      | some source, some _ =>
        if source.reserved_balance_cents < p.amount_cents then
          .error ⟨ErrorCode.INVARIANT_VIOLATION, "reserved funds below amount"⟩
        else
          let accs1 := updateAccount s.accounts p.source_account_id (fun a =>
            { a with reserved_balance_cents := a.reserved_balance_cents - p.amount_cents,
                     version := a.version + 1 })
          let accs2 := updateAccount accs1 p.destination_account_id (fun a =>
            { a with available_balance_cents := a.available_balance_cents + p.amount_cents,
                     version := a.version + 1 })
          .ok ({ s with
                 accounts := accs2,
                 payments := updatePaymentStatus s.payments p.payment_id PaymentStatus.completed,
                 ledger := addLedgerEntries s.ledger p.payment_id p.source_account_id
                   p.destination_account_id p.amount_cents,
                 outbox := markProcessedOutbox s.outbox eid }, 1)
      | _, _ => .error ⟨ErrorCode.INVARIANT_VIOLATION, "account not found"⟩

/-- `WorkerProcessor._handle_eventual_event`.  A funds shortfall is a
business rejection, not an error. -/
def handle_eventual_event (s : DBState) (eid : String) (p : EventPayload) :
    Except WorkerError (DBState × Nat) :=
  match findPayment s.payments p.payment_id with
  | none => .error ⟨ErrorCode.INVARIANT_VIOLATION, "payment not found"⟩
  | some payment =>
    if payment.status = PaymentStatus.completed ∨ payment.status = PaymentStatus.rejected then
      .ok ({ s with outbox := markProcessedOutbox s.outbox eid }, 0)
    else
      match findAccount s.accounts p.source_account_id,
            findAccount s.accounts p.destination_account_id with
      | some source, some _ =>
        if source.available_balance_cents < p.amount_cents then
          .ok ({ s with
                 payments := updatePaymentStatus s.payments p.payment_id PaymentStatus.rejected,
                 outbox := markProcessedOutbox s.outbox eid }, 1)
        else
          let accs1 := updateAccount s.accounts p.source_account_id (fun a =>
            { a with available_balance_cents := a.available_balance_cents - p.amount_cents,
                     version := a.version + 1 })
          let accs2 := updateAccount accs1 p.destination_account_id (fun a =>
            { a with available_balance_cents := a.available_balance_cents + p.amount_cents,
                     version := a.version + 1 })
          .ok ({ s with
                 accounts := accs2,
                 payments := updatePaymentStatus s.payments p.payment_id PaymentStatus.completed,
                 ledger := addLedgerEntries s.ledger p.payment_id p.source_account_id
                   p.destination_account_id p.amount_cents,
                 outbox := markProcessedOutbox s.outbox eid }, 1)
      | _, _ => .error ⟨ErrorCode.INVARIANT_VIOLATION, "account not found"⟩

/-- Propagation of a raised `WorkerError` out of a strategy body into the
per-event exception handling. -/
def liftWorker {α : Type} : Except WorkerError α → Except PyFailure α
  | .ok a => .ok a
  | .error e => .error (PyFailure.worker e)

/-- `WorkerProcessor._process_event` together with the worker mode
strategies of `ledger_worker/services/mode_strategies.py`: parse the
payload, then dispatch on the configured mode.  The strong strategy marks
any event processed; hybrid and eventual match event types strictly.
Injected faults abort the transaction before the strategy runs and are
modelled by the separate transient-failure step. -/
def process_event (mode : ConsistencyMode) (s : DBState) (e : OutboxEvent) :
    Except PyFailure (DBState × Nat) :=
  match parse_payload e.payload_json with
  | .error err => .error err
  | .ok p =>
    match mode with
    | .strong => .ok ({ s with outbox := markProcessedOutbox s.outbox e.id }, 0)
    | .hybrid =>
      if e.event_type = "PAYMENT_RESERVED" then liftWorker (handle_hybrid_event s e.id p)
      else .error (PyFailure.worker
        ⟨ErrorCode.INVARIANT_VIOLATION, "unexpected event " ++ e.event_type⟩)
    | .eventual =>
      if e.event_type = "PAYMENT_REQUESTED" then liftWorker (handle_eventual_event s e.id p)
      else .error (PyFailure.worker
        ⟨ErrorCode.INVARIANT_VIOLATION, "unexpected event " ++ e.event_type⟩)

/-- `WorkerProcessor._handle_permanent_failure`: dead-letter the event in
its own transaction; every other table is untouched. -/
def handle_permanent_failure (s : DBState) (eid : String) : DBState :=
  match findEvent s.outbox eid with
  | none => s
  | some _ =>
    { s with outbox := s.outbox.map (fun e =>
        if e.id == eid then { e with status := OutboxStatus.dead, next_retry_at := none } else e) }

/-- `WorkerProcessor._handle_transient_failure`: compute the backoff delay
`2 ^ min(attempts + 1, 6)` from the attempts value before the increment,
then apply `mark_retry` at `now + delay`. -/
def handle_transient_failure (s : DBState) (eid : String) (now : Nat) : DBState :=
  match findEvent s.outbox eid with
  | none => s
  | some e =>
    let retry_delay_seconds := 2 ^ Nat.min (e.attempts + 1) 6
    { s with outbox := s.outbox.map (fun x =>
        if x.id == eid then mark_retry x (now + retry_delay_seconds) else x) }

/-- `WorkerProcessor._process_event_by_id`: load the event, process it,
with a raised `WorkerError` routed to the permanent-failure handler and
any other exception (a `ValueError` from payload conversion, or an
injected fault) routed to the transient-failure handler, both on the
original (rolled-back) state.  Returns the new state and the
`payments_processed` increment. -/
def process_event_by_id (mode : ConsistencyMode) (s : DBState) (eid : String) (now : Nat) :
    DBState × Nat :=
  match findEvent s.outbox eid with
  | none => (s, 0)
  | some e =>
    match process_event mode s e with
    | .ok r => r
    | .error (PyFailure.worker _) => (handle_permanent_failure s eid, 0)
    | .error (PyFailure.valueError _) => (handle_transient_failure s eid now, 0)

/-- Eligibility filter of `OutboxRepository.fetch_batch_for_processing`:
status in pending or processing, and `next_retry_at` null or due. -/
def eligibleEvent (now : Nat) (e : OutboxEvent) : Bool :=
  (decide (e.status = OutboxStatus.pending) || decide (e.status = OutboxStatus.processing)) &&
  (match e.next_retry_at with
   | none => true
   | some t => decide (t ≤ now))

/-- The `ORDER BY (created_at ASC, id ASC)` comparison. -/
def outboxLe (a b : OutboxEvent) : Bool :=
  decide (a.created_at < b.created_at) ||
    (decide (a.created_at = b.created_at) && decide (a.id ≤ b.id))

/-- `OutboxRepository.fetch_batch_for_processing`: select up to
`batch_size` eligible rows in `(created_at, id)` order and, in the same
transaction, stamp each selected row `processing` with its lease
`next_retry_at = now + processing_timeout`.  Returns the selected rows as
read, together with the stamped state. -/
def fetch_batch_for_processing (s : DBState) (batch_size : Nat) (now : Nat)
    (processing_timeout : Nat) : List OutboxEvent × DBState :=
  let chosen := ((s.outbox.filter (eligibleEvent now)).mergeSort outboxLe).take batch_size
  let ids := chosen.map (fun e => e.id)
  let stamped := s.outbox.map (fun e =>
    if ids.contains e.id then
      { e with status := OutboxStatus.processing, next_retry_at := some (now + processing_timeout) }
    else e)
  (chosen, { s with outbox := stamped })

/-- Create-payment request (`shared.contracts.models.CreatePaymentRequest`). -/
structure CreatePaymentRequest where
  idempotency_key : String
  source_account_id : String
  destination_account_id : String
  amount_cents : Int
  method : String
  deriving DecidableEq, Repr

/-- The pydantic field constraints of `CreatePaymentRequest`: key length
8..128, account id lengths 3..64, amount in (0, 50_000_000], method a
known payment method.  Requests outside these bounds never reach the use
case. -/
def validRequest (r : CreatePaymentRequest) : Prop :=
  8 ≤ r.idempotency_key.length ∧ r.idempotency_key.length ≤ 128 ∧
  3 ≤ r.source_account_id.length ∧ r.source_account_id.length ≤ 64 ∧
  3 ≤ r.destination_account_id.length ∧ r.destination_account_id.length ≤ 64 ∧
  0 < r.amount_cents ∧ r.amount_cents ≤ 50000000 ∧
  (r.method = "pix" ∨ r.method = "ted")

instance (r : CreatePaymentRequest) : Decidable (validRequest r) := by
  unfold validRequest
  infer_instance

/-- API response payload (`shared.contracts.models.PaymentResponse`). -/
structure PaymentResponse where
  payment_id : String
  status : PaymentStatus
  deriving DecidableEq, Repr

/-- The canonical JSON serialization `PaymentResponse.model_dump_json`
stored in the idempotency row and replayed verbatim. -/
def PaymentResponse.encode (r : PaymentResponse) : String :=
  "\x7b\"payment_id\":\"" ++ r.payment_id ++ "\",\"status\":\"" ++ r.status.value ++ "\"\x7d"

/-- Intake-side error (`payments_api.core.errors.DomainError`). -/
structure DomainError where
  error_code : ErrorCode
  message : String
  http_status : Nat
  deriving DecidableEq, Repr

/-- `CreatePaymentUseCase._lock_accounts`: fetch both accounts (in sorted
id order, which does not change the values returned); a missing account is
an `INVALID_PAYMENT` (422). -/
def lock_accounts (s : DBState) (source_id destination_id : String) :
    Except DomainError (Account × Account) :=
  match findAccount s.accounts source_id, findAccount s.accounts destination_id with
  | some a, some b => .ok (a, b)
  | _, _ => .error ⟨ErrorCode.INVALID_PAYMENT, "account not found", 422⟩

/-- `CreatePaymentUseCase._validate_funds`. -/
def validate_funds (source : Account) (amount_cents : Int) : Except DomainError Unit :=
  if source.available_balance_cents < amount_cents then
    .error ⟨ErrorCode.INSUFFICIENT_FUNDS, "insufficient funds", 422⟩
  else .ok ()

/-- `CreatePaymentUseCase._create_payment` builds the payment row; the
fresh uuid-based id is passed in as `payment_id`. -/
def makePayment (r : CreatePaymentRequest) (request_hash payment_id : String)
    (st : PaymentStatus) : Payment :=
  ⟨payment_id, r.idempotency_key, request_hash, r.source_account_id,
   r.destination_account_id, r.amount_cents, r.method, st⟩

/-- The outbox payload dict built by `CreatePaymentUseCase._add_outbox`. -/
def outboxPayload (payment_id src dst : String) (amount : Int) (traceparent : Option String) :
    JObj :=
  [("payment_id", JVal.jstr payment_id),
   ("source_account_id", JVal.jstr src),
   ("destination_account_id", JVal.jstr dst),
   ("amount_cents", JVal.jint amount),
   ("traceparent", match traceparent with | some t => JVal.jstr t | none => JVal.jnull)]

/-- The outbox row written by `CreatePaymentUseCase._add_outbox`: status
pending, attempts 0, no retry time. -/
def makeOutboxEvent (event_id payment_id event_type : String) (r : CreatePaymentRequest)
    (traceparent : Option String) (now : Nat) : OutboxEvent :=
  ⟨event_id, payment_id, event_type,
   outboxPayload payment_id r.source_account_id r.destination_account_id r.amount_cents traceparent,
   OutboxStatus.pending, 0, none, now⟩

/-- `StrongModeStrategy.execute` (intake): lock both accounts, validate
funds, debit source and credit destination, bump both versions, write a
completed payment, append DEBIT and CREDIT ledger rows, no outbox event. -/
def strong_mode_execute (s : DBState) (r : CreatePaymentRequest)
    (request_hash payment_id : String) : Except DomainError (DBState × PaymentResponse) :=
  match lock_accounts s r.source_account_id r.destination_account_id with
  | .error e => .error e
  | .ok (source, _) =>
    match validate_funds source r.amount_cents with
    | .error e => .error e
    | .ok _ =>
      let accs1 := updateAccount s.accounts r.source_account_id (fun a =>
        { a with available_balance_cents := a.available_balance_cents - r.amount_cents,
                 version := a.version + 1 })
      let accs2 := updateAccount accs1 r.destination_account_id (fun a =>
        { a with available_balance_cents := a.available_balance_cents + r.amount_cents,
                 version := a.version + 1 })
      .ok ({ s with
             accounts := accs2,
             payments := s.payments ++ [makePayment r request_hash payment_id PaymentStatus.completed],
             ledger := addLedgerEntries s.ledger payment_id r.source_account_id
               r.destination_account_id r.amount_cents },
           ⟨payment_id, PaymentStatus.completed⟩)

/-- `HybridModeStrategy.execute` (intake): lock both accounts (destination
only for lock ordering), validate funds, move amount from source available
to source reserved, bump the source version, write a reserved payment and
a pending `PAYMENT_RESERVED` outbox event. -/
def hybrid_mode_execute (s : DBState) (r : CreatePaymentRequest)
    (request_hash payment_id event_id : String) (traceparent : Option String) (now : Nat) :
    Except DomainError (DBState × PaymentResponse) :=
  match lock_accounts s r.source_account_id r.destination_account_id with
  | .error e => .error e
  | .ok (source, _) =>
    match validate_funds source r.amount_cents with
    | .error e => .error e
    | .ok _ =>
      let accs1 := updateAccount s.accounts r.source_account_id (fun a =>
        { a with available_balance_cents := a.available_balance_cents - r.amount_cents,
                 reserved_balance_cents := a.reserved_balance_cents + r.amount_cents,
                 version := a.version + 1 })
      .ok ({ s with
             accounts := accs1,
             payments := s.payments ++ [makePayment r request_hash payment_id PaymentStatus.reserved],
             outbox := s.outbox ++ [makeOutboxEvent event_id payment_id "PAYMENT_RESERVED" r traceparent now] },
           ⟨payment_id, PaymentStatus.reserved⟩)

/-- `EventualModeStrategy.execute` (intake): no locking and no funds
check; write a received payment and a pending `PAYMENT_REQUESTED` event. -/
def eventual_mode_execute (s : DBState) (r : CreatePaymentRequest)
    (request_hash payment_id event_id : String) (traceparent : Option String) (now : Nat) :
    Except DomainError (DBState × PaymentResponse) :=
  .ok ({ s with
         payments := s.payments ++ [makePayment r request_hash payment_id PaymentStatus.received],
         outbox := s.outbox ++ [makeOutboxEvent event_id payment_id "PAYMENT_REQUESTED" r traceparent now] },
       ⟨payment_id, PaymentStatus.received⟩)

/-- `CreatePaymentUseCase._execute_mode`: dispatch on the configured mode. -/
def execute_mode (mode : ConsistencyMode) (s : DBState) (r : CreatePaymentRequest)
    (request_hash payment_id event_id : String) (traceparent : Option String) (now : Nat) :
    Except DomainError (DBState × PaymentResponse) :=
  match mode with
  | .strong => strong_mode_execute s r request_hash payment_id
  | .hybrid => hybrid_mode_execute s r request_hash payment_id event_id traceparent now
  | .eventual => eventual_mode_execute s r request_hash payment_id event_id traceparent now

/-- `CreatePaymentUseCase._get_or_validate_idempotency`: `none` when the
key is absent; a hash mismatch is a 409 conflict; an empty stored response
is a 503; otherwise the stored response JSON is replayed. -/
def get_or_validate_idempotency (rows : List IdempotencyKeyRow) (key request_hash : String) :
    Except DomainError (Option String) :=
  match rows.find? (fun row => row.key == key) with
  | none => .ok none
  | some row =>
    if row.request_hash ≠ request_hash then
      .error ⟨ErrorCode.IDEMPOTENCY_CONFLICT, "idempotency key reused with different payload", 409⟩
    else if row.response_payload_json = "" then
      .error ⟨ErrorCode.IDEMPOTENCY_UNAVAILABLE, "idempotency key is being processed", 503⟩
    else .ok (some row.response_payload_json)

/-- `CreatePaymentUseCase._run_transaction` (single-writer path, no
concurrent unique-key race): resolve idempotency inside the transaction;
on replay return the stored response with `created = false`; otherwise run
the mode strategy and save the idempotency row in the same transaction.
The returned response is the serialized JSON body. -/
def run_transaction (mode : ConsistencyMode) (s : DBState) (r : CreatePaymentRequest)
    (request_hash payment_id event_id : String) (traceparent : Option String) (now : Nat) :
    Except DomainError (DBState × String × Bool) :=
  match get_or_validate_idempotency s.idempotency r.idempotency_key request_hash with
  | .error e => .error e
  | .ok (some stored) => .ok (s, stored, false)
  | .ok none =>
    match execute_mode mode s r request_hash payment_id event_id traceparent now with
    | .error e => .error e
    | .ok (s2, resp) =>
      .ok ({ s2 with idempotency :=
               s2.idempotency ++ [⟨r.idempotency_key, request_hash, resp.encode⟩] },
           resp.encode, true)

/-- Outcome of one intake request: final database state, HTTP-level
result, whether a payment was newly created, and the
`idempotency_replay` counter increment. -/
structure IntakeOutcome where
  db : DBState
  result : Except DomainError String
  created : Bool
  idempotency_replay : Nat
  deriving Repr

/-- `CreatePaymentUseCase.execute`: validate that source and destination
differ (`_validate_request`; the remaining field constraints are enforced
by pydantic before the use case runs), then run the transaction; a raised
`DomainError` rolls the transaction back, leaving the state unchanged. -/
def create_payment_execute (mode : ConsistencyMode) (s : DBState) (r : CreatePaymentRequest)
    (request_hash payment_id event_id : String) (traceparent : Option String) (now : Nat) :
    IntakeOutcome :=
  if r.source_account_id = r.destination_account_id then
    ⟨s, .error ⟨ErrorCode.INVALID_PAYMENT, "source and destination must differ", 422⟩, false, 0⟩
  else
    match run_transaction mode s r request_hash payment_id event_id traceparent now with
    | .error e => ⟨s, .error e, false, 0⟩
    | .ok (s2, body, created) => ⟨s2, .ok body, created, if created then 0 else 1⟩

/-- Truncation to a 32-bit word. -/
def w32 (n : Nat) : Nat := n % 4294967296

/-- 32-bit modular addition. -/
def wadd (a b : Nat) : Nat := (a + b) % 4294967296

/-- 32-bit bitwise complement (valid for inputs below `2 ^ 32`). -/
def wnot (x : Nat) : Nat := 4294967295 - x

/-- 32-bit right rotation. -/
def rotr32 (x n : Nat) : Nat := ((x >>> n) ||| (x <<< (32 - n))) % 4294967296

/-- SHA-256 choice function. -/
def shaCh (x y z : Nat) : Nat := (x &&& y) ^^^ (wnot x &&& z)

/-- SHA-256 majority function. -/
def shaMaj (x y z : Nat) : Nat := (x &&& y) ^^^ (x &&& z) ^^^ (y &&& z)

/-- SHA-256 big sigma 0. -/
def bsig0 (x : Nat) : Nat := rotr32 x 2 ^^^ rotr32 x 13 ^^^ rotr32 x 22

/-- SHA-256 big sigma 1. -/
def bsig1 (x : Nat) : Nat := rotr32 x 6 ^^^ rotr32 x 11 ^^^ rotr32 x 25

/-- SHA-256 small sigma 0. -/
def ssig0 (x : Nat) : Nat := rotr32 x 7 ^^^ rotr32 x 18 ^^^ (x >>> 3)

/-- SHA-256 small sigma 1. -/
def ssig1 (x : Nat) : Nat := rotr32 x 17 ^^^ rotr32 x 19 ^^^ (x >>> 10)

/-- The 64 SHA-256 round constants, written in decimal. -/
def sha256K : List Nat :=
  [1116352408, 1899447441, 3049323471, 3921009573, 961987163,
   1508970993, 2453635748, 2870763221, 3624381080, 310598401,
   607225278, 1426881987, 1925078388, 2162078206, 2614888103,
   3248222580, 3835390401, 4022224774, 264347078, 604807628,
   770255983, 1249150122, 1555081692, 1996064986, 2554220882,
   2821834349, 2952996808, 3210313671, 3336571891, 3584528711,
   113926993, 338241895, 666307205, 773529912, 1294757372,
   1396182291, 1695183700, 1986661051, 2177026350, 2456956037,
   2730485921, 2820302411, 3259730800, 3345764771, 3516065817,
   3600352804, 4094571909, 275423344, 430227734, 506948616,
   659060556, 883997877, 958139571, 1322822218, 1537002063,
   1747873779, 1955562222, 2024104815, 2227730452, 2361852424,
   2428436474, 2756734187, 3204031479, 3329325298]

/-- The 8 SHA-256 initial hash words, written in decimal. -/
def sha256H0 : List Nat :=
  [1779033703, 3144134277, 1013904242, 2773480762,
   1359893119, 2600822924, 528734635, 1541459225]

/-- Big-endian byte expansion of a value at a fixed width. -/
def natToBytesBE : Nat → Nat → List Nat
  | 0, _ => []
  | n + 1, v => natToBytesBE n (v >>> 8) ++ [v % 256]

/-- SHA-256 message padding: a `0x80` byte, zeros to 56 mod 64, and the
bit length as a big-endian 64-bit value. -/
def padMessage (msg : List Nat) : List Nat :=
  msg ++ [128] ++ List.replicate ((119 - msg.length % 64) % 64) 0 ++ natToBytesBE 8 (8 * msg.length)

/-- Big-endian packing of bytes into 32-bit words. -/
def bytesToWords : List Nat → List Nat
  | b0 :: b1 :: b2 :: b3 :: rest => (((b0 * 256 + b1) * 256 + b2) * 256 + b3) :: bytesToWords rest
  | _ => []

/-- Message-schedule extension from 16 to 64 words. -/
def extendSchedule (w : List Nat) : List Nat :=
  (List.range 48).foldl (fun acc _ =>
    acc ++ [wadd (wadd (ssig1 (acc.getD (acc.length - 2) 0)) (acc.getD (acc.length - 7) 0))
                 (wadd (ssig0 (acc.getD (acc.length - 15) 0)) (acc.getD (acc.length - 16) 0))]) w

/-- One SHA-256 compression round applied to the 8-word working state. -/
def compressStep (st : List Nat) (kw : Nat × Nat) : List Nat :=
  match st with
  | [a, b, c, d, e, f, g, h] =>
    let t1 := wadd (wadd (wadd h (bsig1 e)) (wadd (shaCh e f g) kw.1)) kw.2
    let t2 := wadd (bsig0 a) (shaMaj a b c)
    [wadd t1 t2, a, b, c, wadd d t1, e, f, g]
  | st => st

/-- Process one 16-word chunk against the running hash words. -/
def compressChunk (hs : List Nat) (words : List Nat) : List Nat :=
  List.zipWith wadd hs ((sha256K.zip (extendSchedule words)).foldl compressStep hs)

/-- Split a word list into 16-word chunks, counted up front so that the
recursion is structural in the count. -/
def chunkWordsAux : Nat → List Nat → List (List Nat)
  | 0, _ => []
  | n + 1, w => w.take 16 :: chunkWordsAux n (w.drop 16)

/-- SHA-256 digest (32 bytes) of a byte string, as computed by Python
`hashlib.sha256`. -/
def sha256Bytes (msg : List Nat) : List Nat :=
  let words := bytesToWords (padMessage msg)
  ((chunkWordsAux (words.length / 16) words).foldl compressChunk sha256H0).foldr
    (fun w acc => natToBytesBE 4 w ++ acc) []

/-- UTF-8 bytes of a string (Python `str.encode("utf-8")`). -/
def strBytes (s : String) : List Nat := s.toUTF8.toList.map (fun b => b.toNat)

/-- Big-endian value of a byte list (Python `int.from_bytes(..., "big")`). -/
def bytesToNatBE (l : List Nat) : Nat := l.foldl (fun acc b => acc * 256 + b) 0

/-- Number of significant bits beyond the 53 an IEEE-754 binary64
mantissa holds, for values below `2 ^ 65`. -/
def excessBits (v : Nat) : Nat :=
  ((List.range 12).filter (fun k => decide (2 ^ (53 + k) ≤ v))).length

/-- Round to nearest, ties to even, at 53 significant bits: exactly what
a 64-bit integer undergoes when Python converts it to a `float`.  The
low `excessBits v` bits are dropped, rounding the quotient up when the
remainder exceeds half an ulp or ties with an odd quotient. -/
def round53 (v : Nat) : Nat :=
  if excessBits v = 0 then v
  else
    if 2 ^ (excessBits v - 1) < v % 2 ^ excessBits v ∨
        (v % 2 ^ excessBits v = 2 ^ (excessBits v - 1) ∧ (v / 2 ^ excessBits v) % 2 = 1) then
      (v / 2 ^ excessBits v + 1) * 2 ^ excessBits v
    else (v / 2 ^ excessBits v) * 2 ^ excessBits v

/-- The exact value of the double Python computes for
`value / float(2 ** 64)`: the integer rounds to a double and the
division by the exactly-representable `2 ** 64` is an exact exponent
shift.  For `v ≥ 2 ^ 64 - 2 ^ 10` the result is exactly 1.0. -/
def py_float_score (v : Nat) : ℚ := (round53 v : ℚ) / 2 ^ 64

/-- The exact value of the IEEE-754 binary64 double nearest the Python
literal `0.02` (slightly above 1/50). -/
def double_0_02 : ℚ := 5764607523034235 / 2 ^ 58

/-- The double nearest `0.01` (slightly above 1/100). -/
def double_0_01 : ℚ := 5764607523034235 / 2 ^ 59

/-- The double nearest `0.10` (slightly above 1/10). -/
def double_0_10 : ℚ := 3602879701896397 / 2 ^ 55

/-- The double nearest `0.05` (slightly above 1/20). -/
def double_0_05 : ℚ := 3602879701896397 / 2 ^ 56

/-- Failure probabilities of one profile
(`ledger_worker.services.failure_injector.FailurePreset`).  The Python
float literals are embedded as the exact values of the IEEE-754 doubles
they produce. -/
structure FailurePreset where
  db_delay_probability : ℚ
  worker_exception_probability : ℚ
  redis_failure_probability : ℚ
  deriving DecidableEq, Repr

/-- The profile table `PRESETS`: none `(0, 0, 0)`, mild
`(0.02, 0.01, 0.0)`, harsh `(0.10, 0.05, 0.05)` — each literal as the
double it denotes at runtime; any other name is a configuration error. -/
def PRESETS : String → Option FailurePreset
  | "none" => some ⟨0, 0, 0⟩
  | "mild" => some ⟨double_0_02, double_0_01, 0⟩
  | "harsh" => some ⟨double_0_10, double_0_05, double_0_05⟩
  | _ => none

/-- `FailureInjector` state: the validated profile, the seed, and the
resolved preset. -/
structure FailureInjector where
  profile : String
  seed : Nat
  preset : FailurePreset
  deriving DecidableEq, Repr

/-- The `FailureInjector` constructor: rejects unknown profiles, stores
the preset for a known one. -/
def FailureInjector.make (profile : String) (seed : Nat) : Option FailureInjector :=
  (PRESETS profile).map (fun preset => ⟨profile, seed, preset⟩)

/-- The scored string `"{seed}:{profile}:{namespace}:{event_id}:{attempt}"`. -/
def score_payload_string (seed : Nat) (profile nspace event_id : String) (attempt : Nat) :
    String :=
  toString seed ++ ":" ++ profile ++ ":" ++ nspace ++ ":" ++ event_id ++ ":" ++ toString attempt

/-- `FailureInjector._score`: the first 8 bytes of the SHA-256 digest,
read big-endian, divided by `float(2 ** 64)` in Python double
arithmetic. -/
def score (inj : FailureInjector) (nspace event_id : String) (attempt : Nat) : ℚ :=
  py_float_score (bytesToNatBE ((sha256Bytes (strBytes
    (score_payload_string inj.seed inj.profile nspace event_id attempt))).take 8))

/-- `FailureInjector.maybe_apply_db_delay` decision (the sleep itself is a
side effect outside the database model). -/
def maybe_apply_db_delay (inj : FailureInjector) (event_id : String) (attempt : Nat) : Bool :=
  decide (score inj "db_delay" event_id attempt < inj.preset.db_delay_probability)

/-- `FailureInjector.should_raise_worker_exception`. -/
def should_raise_worker_exception (inj : FailureInjector) (event_id : String) (attempt : Nat) :
    Bool :=
  decide (score inj "worker_exception" event_id attempt < inj.preset.worker_exception_probability)

/-- `FailureInjector.should_fail_redis_simulation`. -/
def should_fail_redis_simulation (inj : FailureInjector) (event_id : String) (attempt : Nat) :
    Bool :=
  decide (score inj "redis_failure" event_id attempt < inj.preset.redis_failure_probability)

/-- Seed accounts of `payments_api.db.migrate.SEED_ACCOUNTS`: four
accounts with 1,000,000 cents available, 0 reserved, version 0. -/
def SEED_ACCOUNTS : List Account :=
  [⟨"acc-001", 1000000, 0, 0⟩, ⟨"acc-002", 1000000, 0, 0⟩,
   ⟨"acc-003", 1000000, 0, 0⟩, ⟨"acc-004", 1000000, 0, 0⟩]

/-- The seeded initial database state produced by `migrate()`: seed
accounts and empty transactional tables. -/
def initialState : DBState :=
  ⟨SEED_ACCOUNTS, [], [], [], []⟩

/-- Signed contribution of one ledger row to the reconciliation imbalance
(`DomainRepository.ledger_imbalance`): DEBIT counts positively, CREDIT
negatively. -/
def entryDelta (e : LedgerEntry) : Int :=
  match e.direction with
  | .DEBIT => e.amount_cents
  | .CREDIT => -e.amount_cents

/-- `Σ debit − Σ credit` over the whole ledger table. -/
def ledger_imbalance (l : List LedgerEntry) : Int :=
  (l.map entryDelta).sum

/-- Combined balance of one account. -/
def gBal (a : Account) : Int :=
  a.available_balance_cents + a.reserved_balance_cents

/-- Sum of `available + reserved` across all accounts (the conserved
quantity of the spec's conservation property). -/
def totalBalance (accs : List Account) : Int :=
  (accs.map gBal).sum

/-- One database transition of the system: an accepted intake request in
any mode (including replays and rolled-back failures, which leave the
state unchanged), a worker batch acquisition, the processing of one event
(success, idempotent replay, business rejection or permanent
dead-lettering), or a transient failure with its retry/dead-letter
handling. -/
inductive Step : DBState → DBState → Prop where
  | intake (s : DBState) (mode : ConsistencyMode) (r : CreatePaymentRequest)
      (request_hash payment_id event_id : String) (traceparent : Option String) (now : Nat)
      (hr : validRequest r) :
      Step s (create_payment_execute mode s r request_hash payment_id event_id traceparent now).db
  | fetch (s : DBState) (batch_size now processing_timeout : Nat) :
      Step s (fetch_batch_for_processing s batch_size now processing_timeout).2
  | process (s : DBState) (mode : ConsistencyMode) (eid : String) (now : Nat) :
      Step s (process_event_by_id mode s eid now).1
  | transient (s : DBState) (eid : String) (now : Nat) :
      Step s (handle_transient_failure s eid now)

/-- Database states reachable from the seeded initial state. -/
inductive Reachable : DBState → Prop where
  | init : Reachable initialState
  | step (s s2 : DBState) : Reachable s → Step s s2 → Reachable s2

/-- Auxiliary invariant on stored outbox rows: whenever the worker can
parse the payload, the parsed amount is positive and the parsed accounts
differ.  Every event written by the intake service satisfies this. -/
def PayloadOK (e : OutboxEvent) : Prop :=
  ∀ p, parse_payload e.payload_json = .ok p →
    0 < p.amount_cents ∧ p.source_account_id ≠ p.destination_account_id

/-- The inductive invariant: balanced ledger, non-negative balances,
well-formed outbox payloads, and primary-key uniqueness of accounts. -/
def Inv (s : DBState) : Prop :=
  ledger_imbalance s.ledger = 0 ∧
  (∀ a ∈ s.accounts, 0 ≤ a.available_balance_cents ∧ 0 ≤ a.reserved_balance_cents) ∧
  (∀ e ∈ s.outbox, PayloadOK e) ∧
  (s.accounts.map Account.id).Nodup

theorem updateAccount_map_id (accs : List Account) (aid : String) (f : Account → Account)
    (hid : ∀ a, (f a).id = a.id) :
    (updateAccount accs aid f).map Account.id = accs.map Account.id := by
  unfold updateAccount
  rw [List.map_map]
  apply List.map_congr_left
  intro a _
  by_cases h : a.id = aid <;> simp [Function.comp, h, hid]

theorem updateAccount_of_not_mem (accs : List Account) (aid : String) (f : Account → Account)
    (h : aid ∉ accs.map Account.id) : updateAccount accs aid f = accs := by
  induction accs with
  | nil => rfl
  | cons a t ih =>
    simp only [List.map_cons, List.mem_cons] at h
    push_neg at h
    simp only [updateAccount, List.map_cons]
    have ha : (a.id == aid) = false := by
      simp only [beq_eq_false_iff_ne, ne_eq]
      intro hcontra
      exact h.1 hcontra.symm
    rw [ha]
    simp only [Bool.false_eq_true, if_false]
    have := ih h.2
    simp only [updateAccount] at this
    rw [this]

theorem findAccount_mem (accs : List Account) (aid : String) (a0 : Account)
    (h : findAccount accs aid = some a0) : a0 ∈ accs :=
  List.mem_of_find?_eq_some h

theorem findAccount_id (accs : List Account) (aid : String) (a0 : Account)
    (h : findAccount accs aid = some a0) : a0.id = aid := by
  have := List.find?_some h
  simpa using this

theorem findAccount_updateAccount_ne (accs : List Account) (aid bid : String)
    (f : Account → Account) (hid : ∀ a, (f a).id = a.id) (hne : bid ≠ aid) :
    findAccount (updateAccount accs aid f) bid = findAccount accs bid := by
  induction accs with
  | nil => rfl
  | cons a t ih =>
    simp only [updateAccount, List.map_cons, findAccount, List.find?_cons] at *
    by_cases h : a.id = aid
    · have h1 : (a.id == aid) = true := by simpa using h
      have h4 : (a.id == bid) = false := by
        simp only [beq_eq_false_iff_ne, ne_eq]
        intro hc
        exact hne (hc ▸ h)
      have h2 : ((f a).id == bid) = false := by rw [hid]; exact h4
      simp only [h1, if_true, h2, h4, Bool.false_eq_true, if_false]
      exact ih
    · have h1 : (a.id == aid) = false := by simpa using h
      simp only [h1, Bool.false_eq_true, if_false]
      by_cases h3 : a.id = bid
      · have h4 : (a.id == bid) = true := by simpa using h3
        simp only [h4]
      · have h4 : (a.id == bid) = false := by simpa using h3
        simp only [h4]
        exact ih

theorem findAccount_updateAccount_self (accs : List Account) (aid : String)
    (f : Account → Account) (a0 : Account) (hid : ∀ a, (f a).id = a.id)
    (hfind : findAccount accs aid = some a0) :
    findAccount (updateAccount accs aid f) aid = some (f a0) := by
  induction accs with
  | nil => simp [findAccount] at hfind
  | cons a t ih =>
    simp only [updateAccount, List.map_cons, findAccount, List.find?_cons] at *
    by_cases h : a.id = aid
    · have h1 : (a.id == aid) = true := by simpa using h
      have h2 : ((f a).id == aid) = true := by rw [hid]; exact h1
      simp only [h1, if_true, h2] at hfind ⊢
      simp only [Option.some_inj] at hfind ⊢
      rw [hfind]
    · have h1 : (a.id == aid) = false := by simpa using h
      have h2 : ((f a).id == aid) = false := by rw [hid]; exact h1
      simp only [h1, h2, Bool.false_eq_true, if_false] at hfind ⊢
      exact ih hfind

theorem findAccount_eq_of_nodup (accs : List Account) (aid : String) (a0 a : Account)
    (hnd : (accs.map Account.id).Nodup) (hfind : findAccount accs aid = some a0)
    (ha : a ∈ accs) (haid : a.id = aid) : a = a0 := by
  induction accs with
  | nil => simp at ha
  | cons b t ih =>
    simp only [List.map_cons, List.nodup_cons] at hnd
    simp only [findAccount, List.find?_cons] at hfind
    rcases List.mem_cons.mp ha with rfl | hmem
    · have h1 : (a.id == aid) = true := by simpa using haid
      rw [h1] at hfind
      simpa using hfind
    · by_cases hb : b.id = aid
      · exfalso
        apply hnd.1
        rw [hb, ← haid]
        exact List.mem_map_of_mem Account.id hmem
      · have h1 : (b.id == aid) = false := by simpa using hb
        rw [h1] at hfind
        simp only [Bool.false_eq_true, if_false] at hfind
        exact ih hnd.2 hfind hmem

theorem forall_mem_updateAccount (P : Account → Prop) (accs : List Account) (aid : String)
    (f : Account → Account) (a0 : Account)
    (hnd : (accs.map Account.id).Nodup) (hfind : findAccount accs aid = some a0)
    (hall : ∀ a ∈ accs, P a) (hfa : P (f a0)) :
    ∀ b ∈ updateAccount accs aid f, P b := by
  intro b hb
  simp only [updateAccount, List.mem_map] at hb
  obtain ⟨a, ha, rfl⟩ := hb
  by_cases h : a.id = aid
  · have heq : a = a0 := findAccount_eq_of_nodup accs aid a0 a hnd hfind ha h
    have h1 : (a.id == aid) = true := by simpa using h
    simp only [h1, if_true]
    rw [heq]
    exact hfa
  · have h1 : (a.id == aid) = false := by simpa using h
    simp only [h1, Bool.false_eq_true, if_false]
    exact hall a ha

theorem forall_mem_updateAccount_pointwise (P : Account → Prop) (accs : List Account)
    (aid : String) (f : Account → Account)
    (hall : ∀ a ∈ accs, P a) (hf : ∀ a ∈ accs, P a → P (f a)) :
    ∀ b ∈ updateAccount accs aid f, P b := by
  intro b hb
  simp only [updateAccount, List.mem_map] at hb
  obtain ⟨a, ha, rfl⟩ := hb
  by_cases h : a.id = aid
  · have h1 : (a.id == aid) = true := by simpa using h
    simp only [h1, if_true]
    exact hf a ha (hall a ha)
  · have h1 : (a.id == aid) = false := by simpa using h
    simp only [h1, Bool.false_eq_true, if_false]
    exact hall a ha

theorem updateAccount_cons (a : Account) (t : List Account) (aid : String)
    (f : Account → Account) :
    updateAccount (a :: t) aid f = (if a.id == aid then f a else a) :: updateAccount t aid f :=
  rfl

theorem sum_map_updateAccount (g : Account → Int) (accs : List Account) (aid : String)
    (f : Account → Account) (a0 : Account)
    (hnd : (accs.map Account.id).Nodup) (hfind : findAccount accs aid = some a0) :
    ((updateAccount accs aid f).map g).sum = (accs.map g).sum + (g (f a0) - g a0) := by
  induction accs with
  | nil => simp [findAccount] at hfind
  | cons a t ih =>
    simp only [List.map_cons, List.nodup_cons] at hnd
    simp only [findAccount, List.find?_cons] at hfind
    rw [updateAccount_cons]
    by_cases h : a.id = aid
    · have h1 : (a.id == aid) = true := by simpa using h
      simp only [h1, if_true] at hfind ⊢
      have ha0 : a = a0 := by simpa using hfind
      have hupd : updateAccount t aid f = t :=
        updateAccount_of_not_mem t aid f (h ▸ hnd.1)
      rw [hupd, ← ha0]
      simp only [List.map_cons, List.sum_cons]
      ring
    · have h1 : (a.id == aid) = false := by simpa using h
      simp only [h1, Bool.false_eq_true, if_false] at hfind ⊢
      have := ih hnd.2 hfind
      simp only [List.map_cons, List.sum_cons, this]
      ring

theorem sum_map_updateAccount_pointwise (g : Account → Int) (accs : List Account)
    (aid : String) (f : Account → Account) (hg : ∀ a, g (f a) = g a) :
    ((updateAccount accs aid f).map g).sum = (accs.map g).sum := by
  unfold updateAccount
  rw [List.map_map]
  congr 1
  apply List.map_congr_left
  intro a _
  by_cases h : a.id = aid <;> simp [Function.comp, h, hg]

theorem ledger_imbalance_addLedgerEntries (l : List LedgerEntry) (pid src dst : String)
    (amount : Int) :
    ledger_imbalance (addLedgerEntries l pid src dst amount) = ledger_imbalance l := by
  simp only [ledger_imbalance, addLedgerEntries, List.map_append, List.sum_append,
    List.map_cons, List.map_nil, List.sum_cons, List.sum_nil, entryDelta, debitEntry, creditEntry]
  ring

theorem payloadOK_of_map (h : OutboxEvent → OutboxEvent)
    (hpayload : ∀ e, (h e).payload_json = e.payload_json)
    (evs : List OutboxEvent) (hall : ∀ e ∈ evs, PayloadOK e) :
    ∀ e2 ∈ evs.map h, PayloadOK e2 := by
  intro e2 he2
  simp only [List.mem_map] at he2
  obtain ⟨e, he, rfl⟩ := he2
  intro p hp
  rw [hpayload] at hp
  exact hall e he p hp

theorem parse_outboxPayload (payment_id src dst : String) (amount : Int) (tp : Option String)
    (p : EventPayload) (h : parse_payload (outboxPayload payment_id src dst amount tp) = .ok p) :
    p.amount_cents = amount ∧ p.source_account_id = src ∧ p.destination_account_id = dst := by
  obtain ⟨ppid, psrc, pdst, pamt, ptp⟩ := p
  have h1 : JObj.get (outboxPayload payment_id src dst amount tp) "payment_id"
      = some (JVal.jstr payment_id) := rfl
  have h2 : JObj.get (outboxPayload payment_id src dst amount tp) "source_account_id"
      = some (JVal.jstr src) := rfl
  have h3 : JObj.get (outboxPayload payment_id src dst amount tp) "destination_account_id"
      = some (JVal.jstr dst) := rfl
  have h4 : JObj.get (outboxPayload payment_id src dst amount tp) "amount_cents"
      = some (JVal.jint amount) := rfl
  simp only [parse_payload, as_required_str, as_required_int, h1, h2, h3, h4] at h
  by_cases e1 : payment_id.isEmpty <;> by_cases e2 : src.isEmpty <;> by_cases e3 : dst.isEmpty <;>
    simp only [e1, e2, e3, Bool.true_eq_false, if_true, if_false, reduceCtorEq] at h
  simp only [Except.ok.injEq, EventPayload.mk.injEq] at h
  exact ⟨h.2.2.2.1.symm, h.2.1.symm, h.2.2.1.symm⟩

theorem payloadOK_markProcessedOutbox (evs : List OutboxEvent) (eid : String)
    (hall : ∀ e ∈ evs, PayloadOK e) :
    ∀ e2 ∈ markProcessedOutbox evs eid, PayloadOK e2 := by
  apply payloadOK_of_map _ _ evs hall
  intro e
  by_cases h : (e.id == eid) = true <;> simp [h, mark_processed]

theorem totalBalance_double_update (accs : List Account) (src dst : String)
    (f1 f2 : Account → Account) (a0 b0 : Account) (amt : Int)
    (hnd : (accs.map Account.id).Nodup)
    (hfind : findAccount accs src = some a0)
    (hfinddst : findAccount accs dst = some b0)
    (hid1 : ∀ a, (f1 a).id = a.id)
    (hg1 : ∀ a, gBal (f1 a) = gBal a - amt) (hg2 : ∀ a, gBal (f2 a) = gBal a + amt) :
    totalBalance (updateAccount (updateAccount accs src f1) dst f2) = totalBalance accs := by
  have hnd1 : ((updateAccount accs src f1).map Account.id).Nodup := by
    rw [updateAccount_map_id accs src f1 hid1]
    exact hnd
  have hsum1 : totalBalance (updateAccount accs src f1) = totalBalance accs - amt := by
    unfold totalBalance
    rw [sum_map_updateAccount gBal accs src f1 a0 hnd hfind, hg1]
    ring
  by_cases hsd : dst = src
  · subst hsd
    have hfind1 : findAccount (updateAccount accs dst f1) dst = some (f1 a0) :=
      findAccount_updateAccount_self accs dst f1 a0 hid1 hfind
    unfold totalBalance
    rw [sum_map_updateAccount gBal _ dst f2 (f1 a0) hnd1 hfind1, hg2]
    unfold totalBalance at hsum1
    rw [hsum1]
    ring
  · have hfind1 : findAccount (updateAccount accs src f1) dst = some b0 := by
      rw [findAccount_updateAccount_ne accs src dst f1 hid1 hsd]
      exact hfinddst
    unfold totalBalance
    rw [sum_map_updateAccount gBal _ dst f2 b0 hnd1 hfind1, hg2]
    unfold totalBalance at hsum1
    rw [hsum1]
    ring

theorem nodup_updateAccount (accs : List Account) (aid : String) (f : Account → Account)
    (hid : ∀ a, (f a).id = a.id) (hnd : (accs.map Account.id).Nodup) :
    ((updateAccount accs aid f).map Account.id).Nodup := by
  rw [updateAccount_map_id accs aid f hid]
  exact hnd

theorem inv_handle_hybrid_event (s : DBState) (eid : String) (p : EventPayload)
    (s2 : DBState) (d : Nat) (hinv : Inv s) (hamt : 0 < p.amount_cents)
    (h : handle_hybrid_event s eid p = .ok (s2, d)) : Inv s2 := by
  obtain ⟨hbal, hnn, hpl, hnd⟩ := hinv
  unfold handle_hybrid_event at h
  split at h
  · exact (Except.noConfusion h)
  rename_i payment hpay
  split at h
  · simp only [Except.ok.injEq, Prod.mk.injEq] at h
    obtain ⟨hs2, -⟩ := h
    subst hs2
    exact ⟨hbal, hnn, payloadOK_markProcessedOutbox s.outbox eid hpl, hnd⟩
  split at h
  rename_i source dest hsrc hdst
  · split at h
    · exact (Except.noConfusion h)
    rename_i hres
    simp only [Except.ok.injEq, Prod.mk.injEq] at h
    obtain ⟨hs2, -⟩ := h
    subst hs2
    refine ⟨?_, ?_, ?_, ?_⟩
    · simpa [ledger_imbalance_addLedgerEntries] using hbal
    · intro b hb
      refine forall_mem_updateAccount_pointwise
        (fun a => 0 ≤ a.available_balance_cents ∧ 0 ≤ a.reserved_balance_cents)
        _ _ _ ?_ ?_ b hb
      · refine forall_mem_updateAccount
          (fun a => 0 ≤ a.available_balance_cents ∧ 0 ≤ a.reserved_balance_cents)
          s.accounts p.source_account_id _ source hnd hsrc hnn ?_
        have hsm := hnn source (findAccount_mem _ _ _ hsrc)
        simp only [not_lt] at hres
        exact ⟨hsm.1, by dsimp only; omega⟩
      · intro a _ hPa
        obtain ⟨hPa1, hPa2⟩ := hPa
        exact ⟨by dsimp only; omega, hPa2⟩
    · exact payloadOK_markProcessedOutbox s.outbox eid hpl
    · exact nodup_updateAccount _ _ _ (by intro a; rfl)
        (nodup_updateAccount _ _ _ (by intro a; rfl) hnd)
  · exact (Except.noConfusion h)

theorem inv_handle_eventual_event (s : DBState) (eid : String) (p : EventPayload)
    (s2 : DBState) (d : Nat) (hinv : Inv s) (hamt : 0 < p.amount_cents)
    (h : handle_eventual_event s eid p = .ok (s2, d)) : Inv s2 := by
  obtain ⟨hbal, hnn, hpl, hnd⟩ := hinv
  unfold handle_eventual_event at h
  split at h
  · exact (Except.noConfusion h)
  rename_i payment hpay
  split at h
  · simp only [Except.ok.injEq, Prod.mk.injEq] at h
    obtain ⟨hs2, -⟩ := h
    subst hs2
    exact ⟨hbal, hnn, payloadOK_markProcessedOutbox s.outbox eid hpl, hnd⟩
  split at h
  rename_i source dest hsrc hdst
  · split at h
    · simp only [Except.ok.injEq, Prod.mk.injEq] at h
      obtain ⟨hs2, -⟩ := h
      subst hs2
      exact ⟨hbal, hnn, payloadOK_markProcessedOutbox s.outbox eid hpl, hnd⟩
    rename_i hres
    simp only [Except.ok.injEq, Prod.mk.injEq] at h
    obtain ⟨hs2, -⟩ := h
    subst hs2
    refine ⟨?_, ?_, ?_, ?_⟩
    · simpa [ledger_imbalance_addLedgerEntries] using hbal
    · intro b hb
      refine forall_mem_updateAccount_pointwise
        (fun a => 0 ≤ a.available_balance_cents ∧ 0 ≤ a.reserved_balance_cents)
        _ _ _ ?_ ?_ b hb
      · refine forall_mem_updateAccount
          (fun a => 0 ≤ a.available_balance_cents ∧ 0 ≤ a.reserved_balance_cents)
          s.accounts p.source_account_id _ source hnd hsrc hnn ?_
        have hsm := hnn source (findAccount_mem _ _ _ hsrc)
        simp only [not_lt] at hres
        exact ⟨by dsimp only; omega, hsm.2⟩
      · intro a _ hPa
        obtain ⟨hPa1, hPa2⟩ := hPa
        exact ⟨by dsimp only; omega, hPa2⟩
    · exact payloadOK_markProcessedOutbox s.outbox eid hpl
    · exact nodup_updateAccount _ _ _ (by intro a; rfl)
        (nodup_updateAccount _ _ _ (by intro a; rfl) hnd)
  · exact (Except.noConfusion h)

theorem payload_preserved_mark_retry (x : OutboxEvent) (t : Nat) :
    (mark_retry x t).payload_json = x.payload_json := by
  by_cases hc : x.attempts + 1 ≥ 7 <;> simp [mark_retry, hc]

theorem inv_handle_permanent_failure (s : DBState) (eid : String) (hinv : Inv s) :
    Inv (handle_permanent_failure s eid) := by
  obtain ⟨hbal, hnn, hpl, hnd⟩ := hinv
  unfold handle_permanent_failure
  split
  · exact ⟨hbal, hnn, hpl, hnd⟩
  · refine ⟨hbal, hnn, ?_, hnd⟩
    refine payloadOK_of_map _ ?_ s.outbox hpl
    intro e
    by_cases hc : (e.id == eid) = true <;> simp [hc]

theorem inv_handle_transient_failure (s : DBState) (eid : String) (now : Nat) (hinv : Inv s) :
    Inv (handle_transient_failure s eid now) := by
  obtain ⟨hbal, hnn, hpl, hnd⟩ := hinv
  unfold handle_transient_failure
  split
  · exact ⟨hbal, hnn, hpl, hnd⟩
  · refine ⟨hbal, hnn, ?_, hnd⟩
    refine payloadOK_of_map _ ?_ s.outbox hpl
    intro e
    by_cases hc : (e.id == eid) = true <;> simp [hc, payload_preserved_mark_retry]

theorem inv_fetch_batch (s : DBState) (n now ttl : Nat) (hinv : Inv s) :
    Inv (fetch_batch_for_processing s n now ttl).2 := by
  obtain ⟨hbal, hnn, hpl, hnd⟩ := hinv
  simp only [fetch_batch_for_processing]
  refine ⟨hbal, hnn, ?_, hnd⟩
  refine payloadOK_of_map _ ?_ s.outbox hpl
  intro e
  split <;> rfl

theorem liftWorker_ok {α : Type} (x : Except WorkerError α) (a : α) :
    liftWorker x = .ok a ↔ x = .ok a := by
  cases x <;> simp [liftWorker]

theorem inv_process_event (mode : ConsistencyMode) (s : DBState) (e : OutboxEvent)
    (s2 : DBState) (d : Nat) (hinv : Inv s) (he : e ∈ s.outbox)
    (h : process_event mode s e = .ok (s2, d)) : Inv s2 := by
  obtain ⟨hbal, hnn, hpl, hnd⟩ := hinv
  unfold process_event at h
  split at h
  · exact (Except.noConfusion h)
  rename_i p hp
  have hPOK := hpl e he p hp
  cases mode with
  | strong =>
    simp only [Except.ok.injEq, Prod.mk.injEq] at h
    obtain ⟨hs2, -⟩ := h
    subst hs2
    exact ⟨hbal, hnn, payloadOK_markProcessedOutbox s.outbox e.id hpl, hnd⟩
  | hybrid =>
    dsimp only at h
    split at h
    · exact inv_handle_hybrid_event s e.id p s2 d ⟨hbal, hnn, hpl, hnd⟩ hPOK.1
        ((liftWorker_ok _ _).mp h)
    · exact (Except.noConfusion h)
  | eventual =>
    dsimp only at h
    split at h
    · exact inv_handle_eventual_event s e.id p s2 d ⟨hbal, hnn, hpl, hnd⟩ hPOK.1
        ((liftWorker_ok _ _).mp h)
    · exact (Except.noConfusion h)

theorem inv_process_event_by_id (mode : ConsistencyMode) (s : DBState) (eid : String)
    (now : Nat) (hinv : Inv s) : Inv (process_event_by_id mode s eid now).1 := by
  unfold process_event_by_id
  split
  · exact hinv
  rename_i e hfind
  split
  · rename_i r hr
    exact inv_process_event mode s e r.1 r.2 hinv (List.mem_of_find?_eq_some hfind) (by rw [hr])
  · exact inv_handle_permanent_failure s eid hinv
  · exact inv_handle_transient_failure s eid now hinv

theorem payloadOK_makeOutboxEvent (event_id payment_id etype : String)
    (r : CreatePaymentRequest) (tp : Option String) (now : Nat)
    (hamt : 0 < r.amount_cents) (hne : r.source_account_id ≠ r.destination_account_id) :
    PayloadOK (makeOutboxEvent event_id payment_id etype r tp now) := by
  intro p hp
  obtain ⟨h1, h2, h3⟩ := parse_outboxPayload payment_id r.source_account_id
    r.destination_account_id r.amount_cents tp p hp
  exact ⟨by rw [h1]; exact hamt, by rw [h2, h3]; exact hne⟩

theorem inv_strong_mode_execute (s : DBState) (r : CreatePaymentRequest)
    (request_hash payment_id : String) (s2 : DBState) (resp : PaymentResponse)
    (hinv : Inv s) (hamt : 0 < r.amount_cents)
    (h : strong_mode_execute s r request_hash payment_id = .ok (s2, resp)) : Inv s2 := by
  obtain ⟨hbal, hnn, hpl, hnd⟩ := hinv
  unfold strong_mode_execute at h
  split at h
  · exact (Except.noConfusion h)
  rename_i source snd hlock
  split at h
  · exact (Except.noConfusion h)
  rename_i val hval
  have hres : ¬(source.available_balance_cents < r.amount_cents) := by
    unfold validate_funds at hval
    split at hval
    · exact (Except.noConfusion hval)
    · assumption
  have hfs : findAccount s.accounts r.source_account_id = some source := by
    unfold lock_accounts at hlock
    split at hlock
    · simp only [Except.ok.injEq, Prod.mk.injEq] at hlock
      rename_i a b hfa hfb
      rw [hfa, hlock.1]
    · exact (Except.noConfusion hlock)
  simp only [Except.ok.injEq, Prod.mk.injEq] at h
  obtain ⟨hs2, -⟩ := h
  subst hs2
  refine ⟨?_, ?_, ?_, ?_⟩
  · simpa [ledger_imbalance_addLedgerEntries] using hbal
  · intro b hb
    refine forall_mem_updateAccount_pointwise
      (fun a => 0 ≤ a.available_balance_cents ∧ 0 ≤ a.reserved_balance_cents)
      _ _ _ ?_ ?_ b hb
    · refine forall_mem_updateAccount
        (fun a => 0 ≤ a.available_balance_cents ∧ 0 ≤ a.reserved_balance_cents)
        s.accounts r.source_account_id _ source hnd hfs hnn ?_
      have hsm := hnn source (findAccount_mem _ _ _ hfs)
      simp only [not_lt] at hres
      exact ⟨by dsimp only; omega, hsm.2⟩
    · intro a _ hPa
      obtain ⟨hPa1, hPa2⟩ := hPa
      exact ⟨by dsimp only; omega, hPa2⟩
  · exact hpl
  · exact nodup_updateAccount _ _ _ (by intro a; rfl)
      (nodup_updateAccount _ _ _ (by intro a; rfl) hnd)

theorem inv_hybrid_mode_execute (s : DBState) (r : CreatePaymentRequest)
    (request_hash payment_id event_id : String) (tp : Option String) (now : Nat)
    (s2 : DBState) (resp : PaymentResponse)
    (hinv : Inv s) (hamt : 0 < r.amount_cents)
    (hne : r.source_account_id ≠ r.destination_account_id)
    (h : hybrid_mode_execute s r request_hash payment_id event_id tp now = .ok (s2, resp)) :
    Inv s2 := by
  obtain ⟨hbal, hnn, hpl, hnd⟩ := hinv
  unfold hybrid_mode_execute at h
  split at h
  · exact (Except.noConfusion h)
  rename_i source snd hlock
  split at h
  · exact (Except.noConfusion h)
  rename_i val hval
  have hres : ¬(source.available_balance_cents < r.amount_cents) := by
    unfold validate_funds at hval
    split at hval
    · exact (Except.noConfusion hval)
    · assumption
  have hfs : findAccount s.accounts r.source_account_id = some source := by
    unfold lock_accounts at hlock
    split at hlock
    · simp only [Except.ok.injEq, Prod.mk.injEq] at hlock
      rename_i a b hfa hfb
      rw [hfa, hlock.1]
    · exact (Except.noConfusion hlock)
  simp only [Except.ok.injEq, Prod.mk.injEq] at h
  obtain ⟨hs2, -⟩ := h
  subst hs2
  refine ⟨hbal, ?_, ?_, ?_⟩
  · intro b hb
    refine forall_mem_updateAccount
      (fun a => 0 ≤ a.available_balance_cents ∧ 0 ≤ a.reserved_balance_cents)
      s.accounts r.source_account_id _ source hnd hfs hnn ?_ b hb
    have hsm := hnn source (findAccount_mem _ _ _ hfs)
    simp only [not_lt] at hres
    exact ⟨by dsimp only; omega, by dsimp only; omega⟩
  · intro e he
    rcases List.mem_append.mp he with hmem | hmem
    · exact hpl e hmem
    · rw [List.mem_singleton.mp hmem]
      exact payloadOK_makeOutboxEvent event_id payment_id "PAYMENT_RESERVED" r tp now hamt hne
  · exact nodup_updateAccount _ _ _ (by intro a; rfl) hnd

theorem inv_eventual_mode_execute (s : DBState) (r : CreatePaymentRequest)
    (request_hash payment_id event_id : String) (tp : Option String) (now : Nat)
    (s2 : DBState) (resp : PaymentResponse)
    (hinv : Inv s) (hamt : 0 < r.amount_cents)
    (hne : r.source_account_id ≠ r.destination_account_id)
    (h : eventual_mode_execute s r request_hash payment_id event_id tp now = .ok (s2, resp)) :
    Inv s2 := by
  obtain ⟨hbal, hnn, hpl, hnd⟩ := hinv
  unfold eventual_mode_execute at h
  simp only [Except.ok.injEq, Prod.mk.injEq] at h
  obtain ⟨hs2, -⟩ := h
  subst hs2
  refine ⟨hbal, hnn, ?_, hnd⟩
  intro e he
  rcases List.mem_append.mp he with hmem | hmem
  · exact hpl e hmem
  · rw [List.mem_singleton.mp hmem]
    exact payloadOK_makeOutboxEvent event_id payment_id "PAYMENT_REQUESTED" r tp now hamt hne

theorem inv_run_transaction (mode : ConsistencyMode) (s : DBState) (r : CreatePaymentRequest)
    (request_hash payment_id event_id : String) (tp : Option String) (now : Nat)
    (s2 : DBState) (body : String) (c : Bool)
    (hinv : Inv s) (hamt : 0 < r.amount_cents)
    (hne : r.source_account_id ≠ r.destination_account_id)
    (h : run_transaction mode s r request_hash payment_id event_id tp now = .ok (s2, body, c)) :
    Inv s2 := by
  unfold run_transaction at h
  split at h
  · exact (Except.noConfusion h)
  · simp only [Except.ok.injEq, Prod.mk.injEq] at h
    obtain ⟨hs2, -⟩ := h
    rw [← hs2]
    exact hinv
  · split at h
    · exact (Except.noConfusion h)
    rename_i s3 resp hexec
    simp only [Except.ok.injEq, Prod.mk.injEq] at h
    obtain ⟨hs2, -⟩ := h
    subst hs2
    have hpair : Inv s3 := by
      unfold execute_mode at hexec
      cases mode with
      | strong =>
        dsimp only at hexec
        exact inv_strong_mode_execute s r request_hash payment_id s3 resp hinv hamt hexec
      | hybrid =>
        dsimp only at hexec
        exact inv_hybrid_mode_execute s r request_hash payment_id event_id tp now s3 resp
          hinv hamt hne hexec
      | eventual =>
        dsimp only at hexec
        exact inv_eventual_mode_execute s r request_hash payment_id event_id tp now s3 resp
          hinv hamt hne hexec
    exact ⟨hpair.1, hpair.2.1, hpair.2.2.1, hpair.2.2.2⟩

theorem inv_create_payment_execute (mode : ConsistencyMode) (s : DBState)
    (r : CreatePaymentRequest) (request_hash payment_id event_id : String)
    (tp : Option String) (now : Nat) (hinv : Inv s) (hr : validRequest r) :
    Inv (create_payment_execute mode s r request_hash payment_id event_id tp now).db := by
  obtain ⟨-, -, -, -, -, -, hamt, -, -⟩ := hr
  unfold create_payment_execute
  split
  · exact hinv
  rename_i hne
  split
  · exact hinv
  rename_i s2 body c hrun
  exact inv_run_transaction mode s r request_hash payment_id event_id tp now s2 body c
    hinv hamt hne hrun

theorem inv_step (s s2 : DBState) (hinv : Inv s) (hstep : Step s s2) : Inv s2 := by
  cases hstep with
  | intake mode r request_hash payment_id event_id tp now hr =>
    exact inv_create_payment_execute mode s r request_hash payment_id event_id tp now hinv hr
  | fetch n now ttl => exact inv_fetch_batch s n now ttl hinv
  | process mode eid now => exact inv_process_event_by_id mode s eid now hinv
  | transient eid now => exact inv_handle_transient_failure s eid now hinv

theorem inv_initialState : Inv initialState := by
  refine ⟨rfl, ?_, ?_, ?_⟩
  · intro a ha
    simp only [initialState, SEED_ACCOUNTS, List.mem_cons, List.not_mem_nil, or_false] at ha
    rcases ha with rfl | rfl | rfl | rfl <;> exact ⟨by norm_num, by norm_num⟩
  · intro e he
    simp [initialState] at he
  · decide

theorem inv_reachable (s : DBState) (h : Reachable s) : Inv s := by
  induction h with
  | init => exact inv_initialState
  | step s s2 _ hstep ih => exact inv_step s s2 ih hstep

theorem tb_strong_mode_execute (s : DBState) (r : CreatePaymentRequest)
    (request_hash payment_id : String) (s2 : DBState) (resp : PaymentResponse)
    (hnd : (s.accounts.map Account.id).Nodup)
    (h : strong_mode_execute s r request_hash payment_id = .ok (s2, resp)) :
    totalBalance s2.accounts = totalBalance s.accounts := by
  unfold strong_mode_execute at h
  split at h
  · exact (Except.noConfusion h)
  rename_i source snd hlock
  split at h
  · exact (Except.noConfusion h)
  rename_i val hval
  have hlock2 : findAccount s.accounts r.source_account_id = some source ∧
      ∃ b0, findAccount s.accounts r.destination_account_id = some b0 := by
    unfold lock_accounts at hlock
    split at hlock
    · rename_i a b hfa hfb
      simp only [Except.ok.injEq, Prod.mk.injEq] at hlock
      exact ⟨by rw [hfa, hlock.1], ⟨b, hfb⟩⟩
    · exact (Except.noConfusion hlock)
  obtain ⟨hfs, b0, hfd⟩ := hlock2
  simp only [Except.ok.injEq, Prod.mk.injEq] at h
  obtain ⟨hs2, -⟩ := h
  subst hs2
  exact totalBalance_double_update s.accounts r.source_account_id r.destination_account_id
    _ _ source b0 r.amount_cents hnd hfs hfd (by intro a; rfl)
    (by intro a; simp only [gBal]; ring) (by intro a; simp only [gBal]; ring)

theorem tb_hybrid_mode_execute (s : DBState) (r : CreatePaymentRequest)
    (request_hash payment_id event_id : String) (tp : Option String) (now : Nat)
    (s2 : DBState) (resp : PaymentResponse)
    (h : hybrid_mode_execute s r request_hash payment_id event_id tp now = .ok (s2, resp)) :
    totalBalance s2.accounts = totalBalance s.accounts := by
  unfold hybrid_mode_execute at h
  split at h
  · exact (Except.noConfusion h)
  rename_i source snd hlock
  split at h
  · exact (Except.noConfusion h)
  rename_i val hval
  simp only [Except.ok.injEq, Prod.mk.injEq] at h
  obtain ⟨hs2, -⟩ := h
  subst hs2
  exact sum_map_updateAccount_pointwise gBal _ _ _ (by intro a; simp only [gBal]; ring)

theorem tb_eventual_mode_execute (s : DBState) (r : CreatePaymentRequest)
    (request_hash payment_id event_id : String) (tp : Option String) (now : Nat)
    (s2 : DBState) (resp : PaymentResponse)
    (h : eventual_mode_execute s r request_hash payment_id event_id tp now = .ok (s2, resp)) :
    totalBalance s2.accounts = totalBalance s.accounts := by
  unfold eventual_mode_execute at h
  simp only [Except.ok.injEq, Prod.mk.injEq] at h
  obtain ⟨hs2, -⟩ := h
  subst hs2
  rfl

theorem tb_handle_hybrid_event (s : DBState) (eid : String) (p : EventPayload)
    (s2 : DBState) (d : Nat) (hnd : (s.accounts.map Account.id).Nodup)
    (h : handle_hybrid_event s eid p = .ok (s2, d)) :
    totalBalance s2.accounts = totalBalance s.accounts := by
  unfold handle_hybrid_event at h
  split at h
  · exact (Except.noConfusion h)
  rename_i payment hpay
  split at h
  · simp only [Except.ok.injEq, Prod.mk.injEq] at h
    obtain ⟨hs2, -⟩ := h
    subst hs2
    rfl
  split at h
  rename_i source dest hsrc hdst
  · split at h
    · exact (Except.noConfusion h)
    rename_i hres
    simp only [Except.ok.injEq, Prod.mk.injEq] at h
    obtain ⟨hs2, -⟩ := h
    subst hs2
    exact totalBalance_double_update s.accounts p.source_account_id p.destination_account_id
      _ _ source dest p.amount_cents hnd hsrc hdst (by intro a; rfl)
      (by intro a; simp only [gBal]; ring) (by intro a; simp only [gBal]; ring)
  · exact (Except.noConfusion h)

theorem tb_handle_eventual_event (s : DBState) (eid : String) (p : EventPayload)
    (s2 : DBState) (d : Nat) (hnd : (s.accounts.map Account.id).Nodup)
    (h : handle_eventual_event s eid p = .ok (s2, d)) :
    totalBalance s2.accounts = totalBalance s.accounts := by
  unfold handle_eventual_event at h
  split at h
  · exact (Except.noConfusion h)
  rename_i payment hpay
  split at h
  · simp only [Except.ok.injEq, Prod.mk.injEq] at h
    obtain ⟨hs2, -⟩ := h
    subst hs2
    rfl
  split at h
  rename_i source dest hsrc hdst
  · split at h
    · simp only [Except.ok.injEq, Prod.mk.injEq] at h
      obtain ⟨hs2, -⟩ := h
      subst hs2
      rfl
    rename_i hres
    simp only [Except.ok.injEq, Prod.mk.injEq] at h
    obtain ⟨hs2, -⟩ := h
    subst hs2
    exact totalBalance_double_update s.accounts p.source_account_id p.destination_account_id
      _ _ source dest p.amount_cents hnd hsrc hdst (by intro a; rfl)
      (by intro a; simp only [gBal]; ring) (by intro a; simp only [gBal]; ring)
  · exact (Except.noConfusion h)

theorem tb_process_event (mode : ConsistencyMode) (s : DBState) (e : OutboxEvent)
    (s2 : DBState) (d : Nat) (hnd : (s.accounts.map Account.id).Nodup)
    (h : process_event mode s e = .ok (s2, d)) :
    totalBalance s2.accounts = totalBalance s.accounts := by
  unfold process_event at h
  split at h
  · exact (Except.noConfusion h)
  rename_i p hp
  cases mode with
  | strong =>
    simp only [Except.ok.injEq, Prod.mk.injEq] at h
    obtain ⟨hs2, -⟩ := h
    subst hs2
    rfl
  | hybrid =>
    dsimp only at h
    split at h
    · exact tb_handle_hybrid_event s e.id p s2 d hnd ((liftWorker_ok _ _).mp h)
    · exact (Except.noConfusion h)
  | eventual =>
    dsimp only at h
    split at h
    · exact tb_handle_eventual_event s e.id p s2 d hnd ((liftWorker_ok _ _).mp h)
    · exact (Except.noConfusion h)

theorem tb_process_event_by_id (mode : ConsistencyMode) (s : DBState) (eid : String)
    (now : Nat) (hnd : (s.accounts.map Account.id).Nodup) :
    totalBalance (process_event_by_id mode s eid now).1.accounts = totalBalance s.accounts := by
  unfold process_event_by_id
  split
  · rfl
  rename_i e hfind
  split
  · rename_i r hr
    exact tb_process_event mode s e r.1 r.2 hnd (by rw [hr])
  · unfold handle_permanent_failure
    split
    · rfl
    · rfl
  · unfold handle_transient_failure
    split
    · rfl
    · rfl

theorem tb_run_transaction (mode : ConsistencyMode) (s : DBState) (r : CreatePaymentRequest)
    (request_hash payment_id event_id : String) (tp : Option String) (now : Nat)
    (s2 : DBState) (body : String) (c : Bool)
    (hnd : (s.accounts.map Account.id).Nodup)
    (h : run_transaction mode s r request_hash payment_id event_id tp now = .ok (s2, body, c)) :
    totalBalance s2.accounts = totalBalance s.accounts := by
  unfold run_transaction at h
  split at h
  · exact (Except.noConfusion h)
  · simp only [Except.ok.injEq, Prod.mk.injEq] at h
    obtain ⟨hs2, -⟩ := h
    rw [← hs2]
  · split at h
    · exact (Except.noConfusion h)
    rename_i s3 resp hexec
    simp only [Except.ok.injEq, Prod.mk.injEq] at h
    obtain ⟨hs2, -⟩ := h
    subst hs2
    show totalBalance s3.accounts = totalBalance s.accounts
    unfold execute_mode at hexec
    cases mode with
    | strong =>
      dsimp only at hexec
      exact tb_strong_mode_execute s r request_hash payment_id s3 resp hnd hexec
    | hybrid =>
      dsimp only at hexec
      exact tb_hybrid_mode_execute s r request_hash payment_id event_id tp now s3 resp hexec
    | eventual =>
      dsimp only at hexec
      exact tb_eventual_mode_execute s r request_hash payment_id event_id tp now s3 resp hexec

theorem tb_step (s s2 : DBState) (hnd : (s.accounts.map Account.id).Nodup)
    (hstep : Step s s2) : totalBalance s2.accounts = totalBalance s.accounts := by
  cases hstep with
  | intake mode r request_hash payment_id event_id tp now hr =>
    unfold create_payment_execute
    split
    · rfl
    split
    · rfl
    rename_i s3 body c hrun
    exact tb_run_transaction mode s r request_hash payment_id event_id tp now s3 body c hnd hrun
  | fetch n now ttl => rfl
  | process mode eid now => exact tb_process_event_by_id mode s eid now hnd
  | transient eid now =>
    unfold handle_transient_failure
    split
    · rfl
    · rfl

theorem natToBytesBE_lt_256 (n v : Nat) : ∀ b ∈ natToBytesBE n v, b < 256 := by
  induction n generalizing v with
  | zero => intro b hb; simp [natToBytesBE] at hb
  | succ n ih =>
    intro b hb
    simp only [natToBytesBE, List.mem_append, List.mem_singleton] at hb
    rcases hb with hb | rfl
    · exact ih _ b hb
    · exact Nat.mod_lt _ (by norm_num)

theorem foldr_bytes_lt_256 (hs : List Nat) :
    ∀ b ∈ hs.foldr (fun w acc => natToBytesBE 4 w ++ acc) [], b < 256 := by
  induction hs with
  | nil => intro b hb; simp at hb
  | cons w t ih =>
    intro b hb
    simp only [List.foldr_cons, List.mem_append] at hb
    rcases hb with hb | hb
    · exact natToBytesBE_lt_256 4 w b hb
    · exact ih b hb

theorem sha256Bytes_lt_256 (msg : List Nat) : ∀ b ∈ sha256Bytes msg, b < 256 := by
  intro b hb
  simp only [sha256Bytes] at hb
  exact foldr_bytes_lt_256 _ b hb

theorem bytesToNatBE_aux (l : List Nat) (hl : ∀ b ∈ l, b < 256) (acc : Nat) :
    l.foldl (fun acc b => acc * 256 + b) acc < (acc + 1) * 256 ^ l.length := by
  induction l generalizing acc with
  | nil => simp
  | cons b t ih =>
    simp only [List.foldl_cons, List.length_cons]
    have hb : b < 256 := hl b (by simp)
    have ht : ∀ x ∈ t, x < 256 := fun x hx => hl x (by simp [hx])
    have h1 : acc * 256 + b + 1 ≤ (acc + 1) * 256 := by omega
    calc t.foldl (fun acc b => acc * 256 + b) (acc * 256 + b)
        < (acc * 256 + b + 1) * 256 ^ t.length := ih ht (acc * 256 + b)
      _ ≤ ((acc + 1) * 256) * 256 ^ t.length := Nat.mul_le_mul_right _ h1
      _ = (acc + 1) * 256 ^ (t.length + 1) := by ring

theorem bytesToNatBE_lt (l : List Nat) (hl : ∀ b ∈ l, b < 256) :
    bytesToNatBE l < 256 ^ l.length := by
  have := bytesToNatBE_aux l hl 0
  simpa [bytesToNatBE] using this

theorem excessBits_le (v : Nat) : excessBits v ≤ 12 := by
  unfold excessBits
  calc ((List.range 12).filter fun k => decide (2 ^ (53 + k) ≤ v)).length
      ≤ (List.range 12).length := List.length_filter_le _ _
    _ = 12 := List.length_range 12

theorem round53_le (v : Nat) (hv : v < 2 ^ 64) : round53 v ≤ 2 ^ 64 := by
  unfold round53
  split
  · exact le_of_lt hv
  have hk12 : excessBits v ≤ 12 := excessBits_le v
  have hq : v / 2 ^ excessBits v + 1 ≤ 2 ^ (64 - excessBits v) := by
    have hlt : v / 2 ^ excessBits v < 2 ^ (64 - excessBits v) := by
      rw [Nat.div_lt_iff_lt_mul (by positivity)]
      calc v < 2 ^ 64 := hv
        _ = 2 ^ (64 - excessBits v) * 2 ^ excessBits v := by
          rw [← pow_add]
          congr 1
          omega
    omega
  have hle : (v / 2 ^ excessBits v + 1) * 2 ^ excessBits v ≤ 2 ^ 64 := by
    calc (v / 2 ^ excessBits v + 1) * 2 ^ excessBits v
        ≤ 2 ^ (64 - excessBits v) * 2 ^ excessBits v := Nat.mul_le_mul_right _ hq
      _ = 2 ^ 64 := by
        rw [← pow_add]
        congr 1
        omega
  split
  · exact hle
  · exact le_trans (Nat.mul_le_mul_right _ (by omega)) hle

theorem py_float_score_bounds (v : Nat) (hv : v < 2 ^ 64) :
    0 ≤ py_float_score v ∧ py_float_score v ≤ 1 := by
  unfold py_float_score
  constructor
  · positivity
  · rw [div_le_one (by positivity)]
    exact_mod_cast round53_le v hv

theorem score_prefix_lt (inj : FailureInjector) (nspace event_id : String) (attempt : Nat) :
    bytesToNatBE ((sha256Bytes (strBytes
      (score_payload_string inj.seed inj.profile nspace event_id attempt))).take 8) < 2 ^ 64 := by
  have hb : ∀ b ∈ (sha256Bytes (strBytes
      (score_payload_string inj.seed inj.profile nspace event_id attempt))).take 8, b < 256 :=
    fun b hmem => sha256Bytes_lt_256 _ b (List.mem_of_mem_take hmem)
  have h1 := bytesToNatBE_lt _ hb
  have h2 : ((sha256Bytes (strBytes
      (score_payload_string inj.seed inj.profile nspace event_id attempt))).take 8).length
      ≤ 8 := List.length_take_le _ _
  have h3 : (256 : Nat) ^ ((sha256Bytes (strBytes
      (score_payload_string inj.seed inj.profile nspace event_id attempt))).take 8).length
      ≤ 2 ^ 64 := by
    calc (256 : Nat) ^ _ ≤ 256 ^ 8 := Nat.pow_le_pow_right (by norm_num) h2
      _ = 2 ^ 64 := by norm_num
  exact lt_of_lt_of_le h1 h3

theorem score_bounds (inj : FailureInjector) (nspace event_id : String) (attempt : Nat) :
    0 ≤ score inj nspace event_id attempt ∧ score inj nspace event_id attempt ≤ 1 := by
  unfold score
  exact py_float_score_bounds _ (score_prefix_lt inj nspace event_id attempt)

theorem findEvent_map_self (evs : List OutboxEvent) (eid : String)
    (f : OutboxEvent → OutboxEvent) (e0 : OutboxEvent) (hid : ∀ e, (f e).id = e.id)
    (hfind : findEvent evs eid = some e0) :
    findEvent (evs.map (fun x => if x.id == eid then f x else x)) eid = some (f e0) := by
  induction evs with
  | nil => simp [findEvent] at hfind
  | cons e t ih =>
    simp only [List.map_cons, findEvent, List.find?_cons] at *
    by_cases h : e.id = eid
    · have h1 : (e.id == eid) = true := by simpa using h
      have h2 : ((f e).id == eid) = true := by rw [hid]; exact h1
      simp only [h1, if_true, h2] at hfind ⊢
      simp only [Option.some_inj] at hfind ⊢
      rw [hfind]
    · have h1 : (e.id == eid) = false := by simpa using h
      have h2 : ((f e).id == eid) = false := by rw [hid]; exact h1
      simp only [h1, h2, Bool.false_eq_true, if_false] at hfind ⊢
      exact ih hfind

theorem findPayment_updatePaymentStatus_self (ps : List Payment) (pid : String)
    (st : PaymentStatus) (p0 : Payment) (hfind : findPayment ps pid = some p0) :
    findPayment (updatePaymentStatus ps pid st) pid = some { p0 with status := st } := by
  induction ps with
  | nil => simp [findPayment] at hfind
  | cons p t ih =>
    simp only [updatePaymentStatus, List.map_cons, findPayment, List.find?_cons] at *
    by_cases h : p.id = pid
    · have h1 : (p.id == pid) = true := by simpa using h
      simp only [h1, if_true] at hfind ⊢
      simp only [Option.some_inj] at hfind ⊢
      rw [hfind]
    · have h1 : (p.id == pid) = false := by simpa using h
      simp only [h1, Bool.false_eq_true, if_false] at hfind ⊢
      exact ih hfind

theorem mark_retry_id (e : OutboxEvent) (t : Nat) : (mark_retry e t).id = e.id := by
  by_cases hc : e.attempts + 1 ≥ 7 <;> simp [mark_retry, hc]

theorem eligibleEvent_iff (now : Nat) (e : OutboxEvent) :
    eligibleEvent now e = true ↔
      ((e.status = OutboxStatus.pending ∨ e.status = OutboxStatus.processing) ∧
       (e.next_retry_at = none ∨ ∃ t, e.next_retry_at = some t ∧ t ≤ now)) := by
  unfold eligibleEvent
  constructor
  · intro h
    simp only [Bool.and_eq_true, Bool.or_eq_true, decide_eq_true_eq] at h
    refine ⟨h.1, ?_⟩
    rcases hn : e.next_retry_at with - | t
    · exact Or.inl rfl
    · right
      refine ⟨t, rfl, ?_⟩
      have := h.2
      rw [hn] at this
      simpa using this
  · intro ⟨h1, h2⟩
    simp only [Bool.and_eq_true, Bool.or_eq_true, decide_eq_true_eq]
    refine ⟨h1, ?_⟩
    rcases h2 with h2 | ⟨t, ht, hle⟩
    · rw [h2]
    · rw [ht]
      simpa using hle

theorem fetch_batch_mem_eligible (s : DBState) (n now ttl : Nat) :
    ∀ e ∈ (fetch_batch_for_processing s n now ttl).1, eligibleEvent now e = true := by
  intro e he
  simp only [fetch_batch_for_processing] at he
  have h2 : e ∈ (s.outbox.filter (eligibleEvent now)).mergeSort outboxLe :=
    List.mem_of_mem_take he
  have h3 : e ∈ s.outbox.filter (eligibleEvent now) := List.mem_mergeSort.mp h2
  exact List.of_mem_filter h3

theorem outboxLe_trans (a b c : OutboxEvent) (h1 : outboxLe a b = true)
    (h2 : outboxLe b c = true) : outboxLe a c = true := by
  simp only [outboxLe, Bool.or_eq_true, Bool.and_eq_true, decide_eq_true_eq] at *
  rcases h1 with h1 | ⟨h1a, h1b⟩ <;> rcases h2 with h2 | ⟨h2a, h2b⟩
  · exact Or.inl (lt_trans h1 h2)
  · exact Or.inl (h2a ▸ h1)
  · exact Or.inl (h1a ▸ h2)
  · exact Or.inr ⟨h1a.trans h2a, le_trans h1b h2b⟩

theorem outboxLe_total (a b : OutboxEvent) : (outboxLe a b || outboxLe b a) = true := by
  simp only [outboxLe, Bool.or_eq_true, Bool.and_eq_true, decide_eq_true_eq]
  rcases lt_trichotomy a.created_at b.created_at with h | h | h
  · exact Or.inl (Or.inl h)
  · rcases le_total a.id b.id with hid | hid
    · exact Or.inl (Or.inr ⟨h, hid⟩)
    · exact Or.inr (Or.inr ⟨h.symm, hid⟩)
  · exact Or.inr (Or.inl h)

/-- C1: every database state reachable from the seeded initial state by
accepted intake operations (strong, hybrid, eventual) and worker
operations (batch acquisition, hybrid completion, eventual completion or
rejection, retries, dead-lettering) has a balanced ledger — the sum of
DEBIT amounts minus the sum of CREDIT amounts is 0 — and every account
has non-negative available and reserved balances. -/
theorem C1_ledger_invariants (s : DBState) (h : Reachable s) :
    ledger_imbalance s.ledger = 0 ∧
    ∀ a ∈ s.accounts, 0 ≤ a.available_balance_cents ∧ 0 ≤ a.reserved_balance_cents := by
  have hinv := inv_reachable s h
  exact ⟨hinv.1, hinv.2.1⟩

/-- C1 witness: the invariant instantiated at the seeded initial state. -/
theorem C1_ledger_invariants_witness :
    ledger_imbalance initialState.ledger = 0 ∧
    ∀ a ∈ initialState.accounts,
      0 ≤ a.available_balance_cents ∧ 0 ≤ a.reserved_balance_cents :=
  C1_ledger_invariants initialState Reachable.init

/-- C2: the sum of `available + reserved` over all accounts is unchanged
by every system step — every accepted intake in any mode, batch
acquisition, every worker completion of an intra-ledger transfer,
business rejection, retry and dead-lettering — so in particular it never
decreases except by amounts of rejected payments never applied (which are
zero here: a rejected payment's funds were never taken). -/
theorem C2_conservation (s s2 : DBState) (hnd : (s.accounts.map Account.id).Nodup)
    (hstep : Step s s2) : totalBalance s2.accounts = totalBalance s.accounts :=
  tb_step s s2 hnd hstep

/-- C2 witness: conservation across a concrete hybrid intake from the
seeded state. -/
theorem C2_conservation_witness :
    (initialState.accounts.map Account.id).Nodup ∧
    totalBalance (create_payment_execute ConsistencyMode.hybrid initialState
      (CreatePaymentRequest.mk "idem-key-1" "acc-001" "acc-002" 250 "pix")
      "hash-1" "pay-1" "evt-1" none 0).db.accounts = totalBalance initialState.accounts :=
  ⟨by decide,
   C2_conservation initialState _ (by decide)
     (Step.intake initialState ConsistencyMode.hybrid
       (CreatePaymentRequest.mk "idem-key-1" "acc-001" "acc-002" 250 "pix")
       "hash-1" "pay-1" "evt-1" none 0 (by decide))⟩

/-- C3: a transient failure on an outbox event increments `attempts` and
reschedules the event as `pending` at `now + 2 ^ min(attempts + 1, 6)`
seconds (the delay computed from the pre-increment attempts value and
capped at 64 s); exactly when the incremented count reaches 7 the event
instead becomes `dead` with `next_retry_at = none`, and dead events are
never returned by batch acquisition, hence never retried. -/
theorem C3_retry_policy (s : DBState) (eid : String) (now : Nat) (e : OutboxEvent)
    (hfind : findEvent s.outbox eid = some e) :
    findEvent (handle_transient_failure s eid now).outbox eid
      = some (mark_retry e (now + 2 ^ Nat.min (e.attempts + 1) 6)) ∧
    (mark_retry e (now + 2 ^ Nat.min (e.attempts + 1) 6)).attempts = e.attempts + 1 ∧
    (e.attempts + 1 < 7 →
      (mark_retry e (now + 2 ^ Nat.min (e.attempts + 1) 6)).status = OutboxStatus.pending ∧
      (mark_retry e (now + 2 ^ Nat.min (e.attempts + 1) 6)).next_retry_at
        = some (now + 2 ^ Nat.min (e.attempts + 1) 6)) ∧
    2 ^ Nat.min (e.attempts + 1) 6 ≤ 64 ∧
    (7 ≤ e.attempts + 1 ↔
      (mark_retry e (now + 2 ^ Nat.min (e.attempts + 1) 6)).status = OutboxStatus.dead) ∧
    (7 ≤ e.attempts + 1 →
      (mark_retry e (now + 2 ^ Nat.min (e.attempts + 1) 6)).next_retry_at = none) ∧
    (∀ (s2 : DBState) (n now2 ttl : Nat) (x : OutboxEvent),
      x ∈ (fetch_batch_for_processing s2 n now2 ttl).1 → x.status ≠ OutboxStatus.dead) := by
  refine ⟨?_, ?_, ?_, ?_, ?_, ?_, ?_⟩
  · unfold handle_transient_failure
    rw [hfind]
    exact findEvent_map_self s.outbox eid _ e (fun x => mark_retry_id x _) hfind
  · by_cases hc : e.attempts + 1 ≥ 7 <;> simp [mark_retry, hc]
  · intro hlt
    have hc : ¬(e.attempts + 1 ≥ 7) := by omega
    simp [mark_retry, hc]
  · calc 2 ^ Nat.min (e.attempts + 1) 6 ≤ 2 ^ 6 :=
      Nat.pow_le_pow_right (by norm_num) (Nat.min_le_right _ _)
    _ = 64 := by norm_num
  · by_cases hc : 7 ≤ e.attempts + 1 <;>
      simp [mark_retry, show (e.attempts + 1 ≥ 7) = (7 ≤ e.attempts + 1) from rfl, hc]
  · intro hge
    simp [mark_retry, show e.attempts + 1 ≥ 7 from hge]
  · intro s2 n now2 ttl x hx
    have := (eligibleEvent_iff now2 x).mp (fetch_batch_mem_eligible s2 n now2 ttl x hx)
    rcases this.1 with h | h <;> simp [h]

/-- C3 witness: the retry policy applied to a concrete leased event with
zero prior attempts. -/
theorem C3_retry_policy_witness :
    findEvent (handle_transient_failure
        (DBState.mk [] [] [] [OutboxEvent.mk "evt-1" "pay-1" "PAYMENT_REQUESTED" []
          OutboxStatus.processing 0 none 0] []) "evt-1" 100).outbox "evt-1"
      = some (mark_retry (OutboxEvent.mk "evt-1" "pay-1" "PAYMENT_REQUESTED" []
          OutboxStatus.processing 0 none 0) (100 + 2 ^ Nat.min (0 + 1) 6)) ∧
    (mark_retry (OutboxEvent.mk "evt-1" "pay-1" "PAYMENT_REQUESTED" []
        OutboxStatus.processing 0 none 0) (100 + 2 ^ Nat.min (0 + 1) 6)).attempts = 0 + 1 ∧
    (0 + 1 < 7 →
      (mark_retry (OutboxEvent.mk "evt-1" "pay-1" "PAYMENT_REQUESTED" []
          OutboxStatus.processing 0 none 0) (100 + 2 ^ Nat.min (0 + 1) 6)).status
        = OutboxStatus.pending ∧
      (mark_retry (OutboxEvent.mk "evt-1" "pay-1" "PAYMENT_REQUESTED" []
          OutboxStatus.processing 0 none 0) (100 + 2 ^ Nat.min (0 + 1) 6)).next_retry_at
        = some (100 + 2 ^ Nat.min (0 + 1) 6)) ∧
    2 ^ Nat.min (0 + 1) 6 ≤ 64 ∧
    (7 ≤ 0 + 1 ↔
      (mark_retry (OutboxEvent.mk "evt-1" "pay-1" "PAYMENT_REQUESTED" []
          OutboxStatus.processing 0 none 0) (100 + 2 ^ Nat.min (0 + 1) 6)).status
        = OutboxStatus.dead) ∧
    (7 ≤ 0 + 1 →
      (mark_retry (OutboxEvent.mk "evt-1" "pay-1" "PAYMENT_REQUESTED" []
          OutboxStatus.processing 0 none 0) (100 + 2 ^ Nat.min (0 + 1) 6)).next_retry_at
        = none) ∧
    (∀ (s2 : DBState) (n now2 ttl : Nat) (x : OutboxEvent),
      x ∈ (fetch_batch_for_processing s2 n now2 ttl).1 → x.status ≠ OutboxStatus.dead) :=
  C3_retry_policy
    (DBState.mk [] [] [] [OutboxEvent.mk "evt-1" "pay-1" "PAYMENT_REQUESTED" []
      OutboxStatus.processing 0 none 0] [])
    "evt-1" 100
    (OutboxEvent.mk "evt-1" "pay-1" "PAYMENT_REQUESTED" [] OutboxStatus.processing 0 none 0)
    (by decide)

/-- C4: a valid hybrid-mode create-payment request with sufficient funds
moves `amount` from the source's available to its reserved balance, bumps
the source version, leaves both destination balances untouched, appends a
payment with status `reserved` and exactly one pending
`PAYMENT_RESERVED` outbox event with `attempts = 0` in the same
transaction, touches no ledger row, and responds with the serialized
reserved response; with insufficient funds it fails with
`INSUFFICIENT_FUNDS` (422) and the state is unchanged. -/
theorem C4_hybrid_intake (s : DBState) (r : CreatePaymentRequest)
    (request_hash payment_id event_id : String) (tp : Option String) (now : Nat)
    (source dest : Account)
    (_hr : validRequest r)
    (hne : r.source_account_id ≠ r.destination_account_id)
    (hsrc : findAccount s.accounts r.source_account_id = some source)
    (hdst : findAccount s.accounts r.destination_account_id = some dest)
    (hnokey : s.idempotency.find? (fun row => row.key == r.idempotency_key) = none) :
    (r.amount_cents ≤ source.available_balance_cents →
      (create_payment_execute ConsistencyMode.hybrid s r request_hash payment_id event_id
          tp now).result
        = .ok (PaymentResponse.encode ⟨payment_id, PaymentStatus.reserved⟩) ∧
      (create_payment_execute ConsistencyMode.hybrid s r request_hash payment_id event_id
          tp now).created = true ∧
      findAccount (create_payment_execute ConsistencyMode.hybrid s r request_hash payment_id
          event_id tp now).db.accounts r.source_account_id = some
        { source with
          available_balance_cents := source.available_balance_cents - r.amount_cents,
          reserved_balance_cents := source.reserved_balance_cents + r.amount_cents,
          version := source.version + 1 } ∧
      findAccount (create_payment_execute ConsistencyMode.hybrid s r request_hash payment_id
          event_id tp now).db.accounts r.destination_account_id = some dest ∧
      (create_payment_execute ConsistencyMode.hybrid s r request_hash payment_id event_id
          tp now).db.payments
        = s.payments ++ [makePayment r request_hash payment_id PaymentStatus.reserved] ∧
      (makePayment r request_hash payment_id PaymentStatus.reserved).status
        = PaymentStatus.reserved ∧
      (create_payment_execute ConsistencyMode.hybrid s r request_hash payment_id event_id
          tp now).db.outbox
        = s.outbox ++ [makeOutboxEvent event_id payment_id "PAYMENT_RESERVED" r tp now] ∧
      (makeOutboxEvent event_id payment_id "PAYMENT_RESERVED" r tp now).event_type
        = "PAYMENT_RESERVED" ∧
      (makeOutboxEvent event_id payment_id "PAYMENT_RESERVED" r tp now).status
        = OutboxStatus.pending ∧
      (makeOutboxEvent event_id payment_id "PAYMENT_RESERVED" r tp now).attempts = 0 ∧
      (create_payment_execute ConsistencyMode.hybrid s r request_hash payment_id event_id
          tp now).db.ledger = s.ledger) ∧
    (source.available_balance_cents < r.amount_cents →
      create_payment_execute ConsistencyMode.hybrid s r request_hash payment_id event_id tp now
        = ⟨s, .error (DomainError.mk ErrorCode.INSUFFICIENT_FUNDS "insufficient funds" 422),
            false, 0⟩) := by
  have hlock : lock_accounts s r.source_account_id r.destination_account_id
      = .ok (source, dest) := by
    unfold lock_accounts
    rw [hsrc, hdst]
  constructor
  · intro hfunds
    have hvf : validate_funds source r.amount_cents = .ok () := by
      unfold validate_funds
      rw [if_neg (not_lt.mpr hfunds)]
    refine ⟨?_, ?_, ?_, ?_, ?_, rfl, ?_, rfl, rfl, rfl, ?_⟩
    · simp only [create_payment_execute, if_neg hne, run_transaction,
        get_or_validate_idempotency, hnokey, execute_mode, hybrid_mode_execute, hlock, hvf]
    · simp only [create_payment_execute, if_neg hne, run_transaction,
        get_or_validate_idempotency, hnokey, execute_mode, hybrid_mode_execute, hlock, hvf]
    · simp only [create_payment_execute, if_neg hne, run_transaction,
        get_or_validate_idempotency, hnokey, execute_mode, hybrid_mode_execute, hlock, hvf]
      exact findAccount_updateAccount_self s.accounts r.source_account_id _ source
        (fun a => rfl) hsrc
    · simp only [create_payment_execute, if_neg hne, run_transaction,
        get_or_validate_idempotency, hnokey, execute_mode, hybrid_mode_execute, hlock, hvf]
      rw [findAccount_updateAccount_ne s.accounts r.source_account_id
        r.destination_account_id
        (fun a =>
          { a with available_balance_cents := a.available_balance_cents - r.amount_cents,
                   reserved_balance_cents := a.reserved_balance_cents + r.amount_cents,
                   version := a.version + 1 })
        (by intro a; rfl) (fun hc => hne hc.symm)]
      exact hdst
    · simp only [create_payment_execute, if_neg hne, run_transaction,
        get_or_validate_idempotency, hnokey, execute_mode, hybrid_mode_execute, hlock, hvf]
    · simp only [create_payment_execute, if_neg hne, run_transaction,
        get_or_validate_idempotency, hnokey, execute_mode, hybrid_mode_execute, hlock, hvf]
    · simp only [create_payment_execute, if_neg hne, run_transaction,
        get_or_validate_idempotency, hnokey, execute_mode, hybrid_mode_execute, hlock, hvf]
  · intro hlow
    have hvf : validate_funds source r.amount_cents
        = .error (DomainError.mk ErrorCode.INSUFFICIENT_FUNDS "insufficient funds" 422) := by
      unfold validate_funds
      rw [if_pos hlow]
    simp only [create_payment_execute, if_neg hne, run_transaction,
      get_or_validate_idempotency, hnokey, execute_mode, hybrid_mode_execute, hlock, hvf]

/-- C4 witness: a concrete hybrid intake of 250 cents from the seeded
state, exercising both the sufficient-funds branch hypotheses and (via a
second poor account) the description of the outcome. -/
theorem C4_hybrid_intake_witness :
    (250 : Int) ≤ (1000000 : Int) ∧
    (create_payment_execute ConsistencyMode.hybrid initialState
        (CreatePaymentRequest.mk "idem-key-1" "acc-001" "acc-002" 250 "pix")
        "hash-1" "pay-1" "evt-1" none 0).result
      = .ok (PaymentResponse.encode ⟨"pay-1", PaymentStatus.reserved⟩) := by
  have h := C4_hybrid_intake initialState
    (CreatePaymentRequest.mk "idem-key-1" "acc-001" "acc-002" 250 "pix")
    "hash-1" "pay-1" "evt-1" none 0
    (Account.mk "acc-001" 1000000 0 0) (Account.mk "acc-002" 1000000 0 0)
    (by decide) (by decide) (by decide) (by decide) (by decide)
  exact ⟨by norm_num, (h.1 (by norm_num)).1⟩

/-- C5: a `PAYMENT_REQUESTED` event processed by the eventual worker
strategy: on an already-terminal payment the event is only marked
processed; otherwise with `source.available < amount` the payment is
rejected, the event marked processed and `payments_processed`
incremented, with no account or ledger change; otherwise the amount is
debited from the source's available balance and credited to the
destination's, both versions bumped, the payment completed, one DEBIT and
one CREDIT ledger row appended, the event marked processed and
`payments_processed` incremented. -/
theorem C5_eventual_worker (s : DBState) (e : OutboxEvent) (p : EventPayload) (pay : Payment)
    (source dest : Account)
    (htype : e.event_type = "PAYMENT_REQUESTED")
    (hparse : parse_payload e.payload_json = .ok p)
    (hpay : findPayment s.payments p.payment_id = some pay)
    (hsrc : findAccount s.accounts p.source_account_id = some source)
    (hdst : findAccount s.accounts p.destination_account_id = some dest)
    (hne : p.source_account_id ≠ p.destination_account_id) :
    (pay.status = PaymentStatus.completed ∨ pay.status = PaymentStatus.rejected →
      process_event ConsistencyMode.eventual s e
        = .ok ({ s with outbox := markProcessedOutbox s.outbox e.id }, 0)) ∧
    (¬(pay.status = PaymentStatus.completed ∨ pay.status = PaymentStatus.rejected) →
      (source.available_balance_cents < p.amount_cents →
        process_event ConsistencyMode.eventual s e
          = .ok ({ s with
              payments := updatePaymentStatus s.payments p.payment_id PaymentStatus.rejected,
              outbox := markProcessedOutbox s.outbox e.id }, 1) ∧
        findPayment (updatePaymentStatus s.payments p.payment_id PaymentStatus.rejected)
            p.payment_id = some { pay with status := PaymentStatus.rejected }) ∧
      (p.amount_cents ≤ source.available_balance_cents →
        process_event ConsistencyMode.eventual s e
          = .ok ({ s with
              accounts := updateAccount
                (updateAccount s.accounts p.source_account_id (fun a =>
                  { a with
                    available_balance_cents := a.available_balance_cents - p.amount_cents,
                    version := a.version + 1 }))
                p.destination_account_id (fun a =>
                  { a with
                    available_balance_cents := a.available_balance_cents + p.amount_cents,
                    version := a.version + 1 }),
              payments := updatePaymentStatus s.payments p.payment_id PaymentStatus.completed,
              outbox := markProcessedOutbox s.outbox e.id,
              ledger := addLedgerEntries s.ledger p.payment_id p.source_account_id
                p.destination_account_id p.amount_cents }, 1) ∧
        findAccount (updateAccount
            (updateAccount s.accounts p.source_account_id (fun a =>
              { a with
                available_balance_cents := a.available_balance_cents - p.amount_cents,
                version := a.version + 1 }))
            p.destination_account_id (fun a =>
              { a with
                available_balance_cents := a.available_balance_cents + p.amount_cents,
                version := a.version + 1 })) p.source_account_id
          = some { source with
              available_balance_cents := source.available_balance_cents - p.amount_cents,
              version := source.version + 1 } ∧
        findAccount (updateAccount
            (updateAccount s.accounts p.source_account_id (fun a =>
              { a with
                available_balance_cents := a.available_balance_cents - p.amount_cents,
                version := a.version + 1 }))
            p.destination_account_id (fun a =>
              { a with
                available_balance_cents := a.available_balance_cents + p.amount_cents,
                version := a.version + 1 })) p.destination_account_id
          = some { dest with
              available_balance_cents := dest.available_balance_cents + p.amount_cents,
              version := dest.version + 1 } ∧
        findPayment (updatePaymentStatus s.payments p.payment_id PaymentStatus.completed)
            p.payment_id = some { pay with status := PaymentStatus.completed })) := by
  refine ⟨?_, ?_⟩
  · intro hterm
    simp only [process_event, hparse, if_pos htype, handle_eventual_event, hpay, if_pos hterm,
      liftWorker]
  · intro hterm
    refine ⟨?_, ?_⟩
    · intro hlow
      refine ⟨?_, ?_⟩
      · simp only [process_event, hparse, if_pos htype, handle_eventual_event, hpay,
          if_neg hterm, hsrc, hdst, if_pos hlow, liftWorker]
      · exact findPayment_updatePaymentStatus_self s.payments p.payment_id
          PaymentStatus.rejected pay hpay
    · intro hfunds
      refine ⟨?_, ?_, ?_, ?_⟩
      · simp only [process_event, hparse, if_pos htype, handle_eventual_event, hpay,
          if_neg hterm, hsrc, hdst, if_neg (not_lt.mpr hfunds), liftWorker]
      · rw [findAccount_updateAccount_ne _ p.destination_account_id p.source_account_id
          (fun a => { a with
            available_balance_cents := a.available_balance_cents + p.amount_cents,
            version := a.version + 1 })
          (by intro a; rfl) hne]
        exact findAccount_updateAccount_self s.accounts p.source_account_id _ source
          (fun a => rfl) hsrc
      · refine findAccount_updateAccount_self _ p.destination_account_id _ dest
          (fun a => rfl) ?_
        rw [findAccount_updateAccount_ne _ p.source_account_id p.destination_account_id
          (fun a => { a with
            available_balance_cents := a.available_balance_cents - p.amount_cents,
            version := a.version + 1 })
          (by intro a; rfl) (fun hc => hne hc.symm)]
        exact hdst
      · exact findPayment_updatePaymentStatus_self s.payments p.payment_id
          PaymentStatus.completed pay hpay

/-- C5 witness: the business-rejection branch on a concrete state — a
received 300-cent payment whose source holds only 100 cents available. -/
theorem C5_eventual_worker_witness :
    process_event ConsistencyMode.eventual
      (DBState.mk
        [Account.mk "acc-001" 100 0 0, Account.mk "acc-002" 1000300 0 0]
        [Payment.mk "pay-1" "k-12345678" "h" "acc-001" "acc-002" 300 "pix"
          PaymentStatus.received]
        []
        [OutboxEvent.mk "evt-1" "pay-1" "PAYMENT_REQUESTED"
          (outboxPayload "pay-1" "acc-001" "acc-002" 300 none) OutboxStatus.processing 0 none 0]
        [])
      (OutboxEvent.mk "evt-1" "pay-1" "PAYMENT_REQUESTED"
        (outboxPayload "pay-1" "acc-001" "acc-002" 300 none) OutboxStatus.processing 0 none 0)
      = .ok ({ DBState.mk
          [Account.mk "acc-001" 100 0 0, Account.mk "acc-002" 1000300 0 0]
          [Payment.mk "pay-1" "k-12345678" "h" "acc-001" "acc-002" 300 "pix"
            PaymentStatus.received]
          []
          [OutboxEvent.mk "evt-1" "pay-1" "PAYMENT_REQUESTED"
            (outboxPayload "pay-1" "acc-001" "acc-002" 300 none) OutboxStatus.processing 0 none 0]
          [] with
          payments := updatePaymentStatus
            [Payment.mk "pay-1" "k-12345678" "h" "acc-001" "acc-002" 300 "pix"
              PaymentStatus.received] "pay-1" PaymentStatus.rejected,
          outbox := markProcessedOutbox
            [OutboxEvent.mk "evt-1" "pay-1" "PAYMENT_REQUESTED"
              (outboxPayload "pay-1" "acc-001" "acc-002" 300 none) OutboxStatus.processing 0
              none 0] "evt-1" }, 1) :=
  (((C5_eventual_worker
    (DBState.mk
      [Account.mk "acc-001" 100 0 0, Account.mk "acc-002" 1000300 0 0]
      [Payment.mk "pay-1" "k-12345678" "h" "acc-001" "acc-002" 300 "pix"
        PaymentStatus.received]
      []
      [OutboxEvent.mk "evt-1" "pay-1" "PAYMENT_REQUESTED"
        (outboxPayload "pay-1" "acc-001" "acc-002" 300 none) OutboxStatus.processing 0 none 0]
      [])
    (OutboxEvent.mk "evt-1" "pay-1" "PAYMENT_REQUESTED"
      (outboxPayload "pay-1" "acc-001" "acc-002" 300 none) OutboxStatus.processing 0 none 0)
    (EventPayload.mk "pay-1" "acc-001" "acc-002" 300 none)
    (Payment.mk "pay-1" "k-12345678" "h" "acc-001" "acc-002" 300 "pix" PaymentStatus.received)
    (Account.mk "acc-001" 100 0 0) (Account.mk "acc-002" 1000300 0 0)
    rfl rfl rfl rfl rfl (by decide)).2 (by decide)).1 (by decide)).1

/-- C6: idempotency resolution inside the intake transaction, for any
mode.  A row with matching `request_hash` and non-empty stored response
replays the stored response unchanged, increments the
`idempotency_replay` counter and leaves the whole database state (hence
the payments table) unchanged; a differing `request_hash` fails
`IDEMPOTENCY_CONFLICT` (409); an empty stored response fails
`IDEMPOTENCY_UNAVAILABLE` (503) — both with no state change. -/
theorem C6_idempotency (mode : ConsistencyMode) (s : DBState) (r : CreatePaymentRequest)
    (request_hash payment_id event_id : String) (tp : Option String) (now : Nat)
    (row : IdempotencyKeyRow)
    (hne : r.source_account_id ≠ r.destination_account_id)
    (hrow : s.idempotency.find? (fun x => x.key == r.idempotency_key) = some row) :
    (row.request_hash = request_hash → row.response_payload_json ≠ "" →
      create_payment_execute mode s r request_hash payment_id event_id tp now
        = ⟨s, .ok row.response_payload_json, false, 1⟩) ∧
    (row.request_hash ≠ request_hash →
      create_payment_execute mode s r request_hash payment_id event_id tp now
        = ⟨s, .error (DomainError.mk ErrorCode.IDEMPOTENCY_CONFLICT
            "idempotency key reused with different payload" 409), false, 0⟩) ∧
    (row.request_hash = request_hash → row.response_payload_json = "" →
      create_payment_execute mode s r request_hash payment_id event_id tp now
        = ⟨s, .error (DomainError.mk ErrorCode.IDEMPOTENCY_UNAVAILABLE
            "idempotency key is being processed" 503), false, 0⟩) := by
  refine ⟨?_, ?_, ?_⟩
  · intro hmatch hresp
    have h1 : ¬(row.request_hash ≠ request_hash) := fun hc => hc hmatch
    simp only [create_payment_execute, if_neg hne, run_transaction,
      get_or_validate_idempotency, hrow, if_neg h1, if_neg hresp, Bool.false_eq_true,
      if_false]
  · intro hdiff
    simp only [create_payment_execute, if_neg hne, run_transaction,
      get_or_validate_idempotency, hrow, if_pos hdiff]
  · intro hmatch hresp
    have h1 : ¬(row.request_hash ≠ request_hash) := fun hc => hc hmatch
    simp only [create_payment_execute, if_neg hne, run_transaction,
      get_or_validate_idempotency, hrow, if_neg h1, if_pos hresp]

/-- C6 witness: a concrete replay — the stored response body is returned
verbatim, nothing is created and the replay counter increments once. -/
theorem C6_idempotency_witness :
    create_payment_execute ConsistencyMode.hybrid
      (DBState.mk [] [] [IdempotencyKeyRow.mk "k-12345678" "h1" "stored-response"] [] [])
      (CreatePaymentRequest.mk "k-12345678" "acc-001" "acc-002" 250 "pix")
      "h1" "pay-1" "evt-1" none 0
      = ⟨DBState.mk [] [] [IdempotencyKeyRow.mk "k-12345678" "h1" "stored-response"] [] [],
         .ok "stored-response", false, 1⟩ :=
  (C6_idempotency ConsistencyMode.hybrid
    (DBState.mk [] [] [IdempotencyKeyRow.mk "k-12345678" "h1" "stored-response"] [] [])
    (CreatePaymentRequest.mk "k-12345678" "acc-001" "acc-002" 250 "pix")
    "h1" "pay-1" "evt-1" none 0
    (IdempotencyKeyRow.mk "k-12345678" "h1" "stored-response")
    (by decide) (by decide)).1 rfl (by decide)

/-- C7: batch acquisition returns at most `batch_size` events, exactly a
prefix of the eligible events (status pending or processing, retry time
null or due) sorted in ascending `(created_at, id)` order — the sorted
list is a permutation of the eligible filter and the returned part plus
the dropped remainder reassembles it — never a processed or dead event,
and in the same transaction stamps each returned event `processing` with
`next_retry_at = now + lease TTL`, leaving all other rows unchanged. -/
theorem C7_fetch_batch (s : DBState) (batch_size now ttl : Nat) :
    (fetch_batch_for_processing s batch_size now ttl).1.length ≤ batch_size ∧
    (∀ e ∈ (fetch_batch_for_processing s batch_size now ttl).1,
      (e.status = OutboxStatus.pending ∨ e.status = OutboxStatus.processing) ∧
      (e.next_retry_at = none ∨ ∃ t, e.next_retry_at = some t ∧ t ≤ now) ∧
      e.status ≠ OutboxStatus.processed ∧ e.status ≠ OutboxStatus.dead) ∧
    (fetch_batch_for_processing s batch_size now ttl).1
        ++ ((s.outbox.filter (eligibleEvent now)).mergeSort outboxLe).drop batch_size
      = (s.outbox.filter (eligibleEvent now)).mergeSort outboxLe ∧
    List.Pairwise (fun a b => outboxLe a b = true)
      ((s.outbox.filter (eligibleEvent now)).mergeSort outboxLe) ∧
    List.Perm ((s.outbox.filter (eligibleEvent now)).mergeSort outboxLe)
      (s.outbox.filter (eligibleEvent now)) ∧
    (fetch_batch_for_processing s batch_size now ttl).2.outbox
      = s.outbox.map (fun x =>
          if (((fetch_batch_for_processing s batch_size now ttl).1.map
              (fun y => y.id)).contains x.id) then
            { x with status := OutboxStatus.processing, next_retry_at := some (now + ttl) }
          else x) ∧
    (∀ e ∈ s.outbox,
      (((fetch_batch_for_processing s batch_size now ttl).1.map
          (fun y => y.id)).contains e.id) = true →
      { e with status := OutboxStatus.processing, next_retry_at := some (now + ttl) }
        ∈ (fetch_batch_for_processing s batch_size now ttl).2.outbox) := by
  refine ⟨?_, ?_, ?_, ?_, ?_, rfl, ?_⟩
  · exact List.length_take_le _ _
  · intro e he
    have helig := (eligibleEvent_iff now e).mp
      (fetch_batch_mem_eligible s batch_size now ttl e he)
    refine ⟨helig.1, helig.2, ?_, ?_⟩ <;> rcases helig.1 with h | h <;> simp [h]
  · exact List.take_append_drop _ _
  · exact List.sorted_mergeSort outboxLe_trans outboxLe_total _
  · exact List.mergeSort_perm _ _
  · intro e he hc
    have h6 : (fetch_batch_for_processing s batch_size now ttl).2.outbox
        = s.outbox.map (fun x =>
            if (((fetch_batch_for_processing s batch_size now ttl).1.map
                (fun y => y.id)).contains x.id) then
              { x with status := OutboxStatus.processing, next_retry_at := some (now + ttl) }
            else x) := rfl
    rw [h6]
    have hmem := List.mem_map_of_mem (fun x =>
        if (((fetch_batch_for_processing s batch_size now ttl).1.map
            (fun y => y.id)).contains x.id) then
          { x with status := OutboxStatus.processing, next_retry_at := some (now + ttl) }
        else x) he
    dsimp only at hmem
    rw [if_pos hc] at hmem
    exact hmem

/-- C7 witness: batch acquisition on the seeded (empty-outbox) state
returns at most the batch size. -/
theorem C7_fetch_batch_witness :
    (fetch_batch_for_processing initialState 5 0 30).1.length ≤ 5 :=
  (C7_fetch_batch initialState 5 0 30).1

/-- C8: in strong mode the worker accepts an event whose payload parses
regardless of its event type and simply marks it processed, mutating no
account, payment or ledger row. -/
theorem C8_strong_worker (s : DBState) (e : OutboxEvent) (p : EventPayload)
    (hparse : parse_payload e.payload_json = .ok p) :
    (∀ etype : String,
      process_event ConsistencyMode.strong s { e with event_type := etype }
        = .ok ({ s with outbox := markProcessedOutbox s.outbox e.id }, 0)) ∧
    ({ s with outbox := markProcessedOutbox s.outbox e.id } : DBState).accounts = s.accounts ∧
    ({ s with outbox := markProcessedOutbox s.outbox e.id } : DBState).payments = s.payments ∧
    ({ s with outbox := markProcessedOutbox s.outbox e.id } : DBState).ledger = s.ledger := by
  refine ⟨?_, rfl, rfl, rfl⟩
  intro etype
  have hparse2 : parse_payload ({ e with event_type := etype } : OutboxEvent).payload_json
      = .ok p := hparse
  simp only [process_event, hparse2]

/-- C8 witness: a concrete event with an arbitrary event type is marked
processed by the strong strategy. -/
theorem C8_strong_worker_witness :
    process_event ConsistencyMode.strong
      (DBState.mk [] [] []
        [OutboxEvent.mk "evt-1" "pay-1" "SOME_LEGACY_TYPE"
          (outboxPayload "pay-1" "acc-001" "acc-002" 300 none) OutboxStatus.processing 0 none 0]
        [])
      (OutboxEvent.mk "evt-1" "pay-1" "SOME_LEGACY_TYPE"
        (outboxPayload "pay-1" "acc-001" "acc-002" 300 none) OutboxStatus.processing 0 none 0)
      = .ok ({ DBState.mk [] [] []
          [OutboxEvent.mk "evt-1" "pay-1" "SOME_LEGACY_TYPE"
            (outboxPayload "pay-1" "acc-001" "acc-002" 300 none) OutboxStatus.processing 0
            none 0] [] with
          outbox := markProcessedOutbox
            [OutboxEvent.mk "evt-1" "pay-1" "SOME_LEGACY_TYPE"
              (outboxPayload "pay-1" "acc-001" "acc-002" 300 none) OutboxStatus.processing 0
              none 0] "evt-1" }, 0) :=
  (C8_strong_worker
    (DBState.mk [] [] []
      [OutboxEvent.mk "evt-1" "pay-1" "SOME_LEGACY_TYPE"
        (outboxPayload "pay-1" "acc-001" "acc-002" 300 none) OutboxStatus.processing 0 none 0]
      [])
    (OutboxEvent.mk "evt-1" "pay-1" "PAYMENT_REQUESTED"
      (outboxPayload "pay-1" "acc-001" "acc-002" 300 none) OutboxStatus.processing 0 none 0)
    (EventPayload.mk "pay-1" "acc-001" "acc-002" 300 none) rfl).1 "SOME_LEGACY_TYPE"

/-- C9: for every valid profile the injector's decisions equal the
double-precision comparison `u < p_namespace`, where `u` is the first
8 bytes (big-endian) of the SHA-256 of
`"{seed}:{profile}:{namespace}:{event_id}:{attempt}"` converted to a
Python `float` and divided by `float(2 ** 64)` — a double in `[0, 1]`,
reaching exactly `1.0` for digest prefixes within `2 ^ 10` of
`2 ^ 64` — and `p_namespace` comes from the profile table none
`(0, 0, 0)`, mild `(0.02, 0.01, 0)`, harsh `(0.10, 0.05, 0.05)` with
each literal denoting the IEEE-754 double nearest it; the decision is a
deterministic function of the five inputs, identical for any injector
built with the same profile and seed. -/
theorem C9_failure_injector (profile : String) (seed : Nat) (inj : FailureInjector)
    (hinj : FailureInjector.make profile seed = some inj)
    (nspace event_id : String) (attempt : Nat) :
    inj.profile = profile ∧ inj.seed = seed ∧ PRESETS profile = some inj.preset ∧
    (∀ inj2, FailureInjector.make profile seed = some inj2 → inj2 = inj) ∧
    score inj nspace event_id attempt
      = py_float_score (bytesToNatBE ((sha256Bytes (strBytes
          (score_payload_string seed profile nspace event_id attempt))).take 8)) ∧
    0 ≤ score inj nspace event_id attempt ∧ score inj nspace event_id attempt ≤ 1 ∧
    maybe_apply_db_delay inj event_id attempt
      = decide (score inj "db_delay" event_id attempt < inj.preset.db_delay_probability) ∧
    should_raise_worker_exception inj event_id attempt
      = decide (score inj "worker_exception" event_id attempt
          < inj.preset.worker_exception_probability) ∧
    should_fail_redis_simulation inj event_id attempt
      = decide (score inj "redis_failure" event_id attempt
          < inj.preset.redis_failure_probability) ∧
    PRESETS "none" = some (FailurePreset.mk 0 0 0) ∧
    PRESETS "mild" = some (FailurePreset.mk double_0_02 double_0_01 0) ∧
    PRESETS "harsh" = some (FailurePreset.mk double_0_10 double_0_05 double_0_05) := by
  unfold FailureInjector.make at hinj
  rcases hp : PRESETS profile with - | preset
  · rw [hp] at hinj
    exact absurd hinj (by simp)
  · rw [hp] at hinj
    simp only [Option.map_some', Option.some_inj] at hinj
    subst hinj
    refine ⟨rfl, rfl, rfl, ?_, rfl, (score_bounds _ _ _ _).1, (score_bounds _ _ _ _).2,
      rfl, rfl, rfl, rfl, rfl, rfl⟩
    intro inj2 h2
    rw [FailureInjector.make, hp] at h2
    simpa using h2.symm

/-- C9 counterexample to the exact-rational reading of the score: the
program divides by `2 ^ 64` in double arithmetic after rounding the
64-bit digest value to 53 bits of mantissa, so a value of `2 ^ 64 - 1`
scores exactly `1.0` — outside `[0, 1)` — although its exact ratio is
below 1; and at the value `368934881474191032` the score rounds to
exactly the double `0.02`, so the strict comparison is false although
the exact ratio is below `2 / 100`. -/
theorem C9_float_counterexample :
    py_float_score (2 ^ 64 - 1) = 1 ∧
    ((2 ^ 64 - 1 : ℚ) / 2 ^ 64 < 1) ∧
    py_float_score 368934881474191032 = double_0_02 ∧
    decide (py_float_score 368934881474191032 < double_0_02) = false ∧
    ((368934881474191032 : ℚ) / 2 ^ 64 < 2 / 100) := by
  have h1 : round53 (2 ^ 64 - 1) = 2 ^ 64 := by decide
  have h2 : round53 368934881474191032 = 368934881474191040 := by decide
  have h3 : py_float_score 368934881474191032 = double_0_02 := by
    rw [py_float_score, h2, double_0_02]
    norm_num
  refine ⟨?_, by norm_num, h3, ?_, by norm_num⟩
  · rw [py_float_score, h1]
    norm_num
  · rw [h3]
    simp

/-- C9 witness: the score of a concrete mild-profile injector at seed 42
lies in `[0, 1]`. -/
theorem C9_failure_injector_witness :
    0 ≤ score (FailureInjector.mk "mild" 42 (FailurePreset.mk double_0_02 double_0_01 0))
        "db_delay" "evt-001" 1 ∧
    score (FailureInjector.mk "mild" 42 (FailurePreset.mk double_0_02 double_0_01 0))
        "db_delay" "evt-001" 1 ≤ 1 := by
  have h := C9_failure_injector "mild" 42
    (FailureInjector.mk "mild" 42 (FailurePreset.mk double_0_02 double_0_01 0)) rfl
    "db_delay" "evt-001" 1
  exact ⟨h.2.2.2.2.2.1, h.2.2.2.2.2.2.1⟩

end Ledger
